import Mathlib

/-!
Verification of the mmiai workflow-orchestration core.

This file gives a shallow embedding, in Lean, of the parts of the repository
relevant to its specification: the classification validator
(`src/mastra/workflows/steps/classify-intent.ts`), the agent execution
orchestrator (`src/mastra/workflows/steps/agent-steps.ts`), the quality gate
(`src/mastra/workflows/steps/quality-check.ts`), the merge step of the
multi-agent variant (`merge-results.ts`), the chat workflow pipeline
(`src/mastra/workflows/chat-workflow.ts`), and the lazy MCP connection manager
(`src/mastra/mcp/connection-manager.ts`), together with theorems settling the
spec claims.

External LLM collaborators (agent.generate and friends) are modelled as
function parameters: an arbitrary function of type `String → String → GenResult`
stands for one behaviour of the per-worker execution collaborator, which
receives a prompt and either returns text or throws.  JavaScript strings are
modelled by Lean `String`; the byte-based JS helpers used by the source
(`trim`, `toLowerCase`, `split(/\s+/)`, `includes`) are re-implemented on
`List Char` so that every definition is kernel-computable.
-/

namespace Mmiai

/-! ### JS string primitives

`strTruthy` models JavaScript truthiness of a string (`""` is falsy);
`optStrTruthy` the truthiness of `string | undefined`. -/

def strTruthy (s : String) : Bool := s != ""

def optStrTruthy : Option String → Bool
  | none => false
  | some s => strTruthy s

/-- JS `String.prototype.includes`: `pat` occurs contiguously in `s`.
Decidable via `List.IsInfix`. -/
def containsStr (s pat : String) : Prop := pat.data <:+: s.data

instance (s pat : String) : Decidable (containsStr s pat) := by
  unfold containsStr; infer_instance

/-- JS `String.prototype.trim` on the character list (drops leading and
trailing whitespace). -/
def trimList (l : List Char) : List Char :=
  ((l.dropWhile Char.isWhitespace).reverse.dropWhile Char.isWhitespace).reverse

/-- JS `Array.prototype.join(sep)`. -/
def joinSep (sep : String) : List String → String
  | [] => ""
  | [x] => x
  | x :: y :: xs => x ++ sep ++ joinSep sep (y :: xs)

/-! ### Data model (`classify-intent.ts`, `agent-steps.ts`, `state.ts`) -/

/-- `type` field of `classificationOutputSchema`. -/
inductive PlanType
  | simple
  | agent
  | clarify
  | ambiguous
deriving DecidableEq, Repr

/-- `executionMode` field (zod default `"parallel"` is made explicit). -/
inductive ExecutionMode
  | parallel
  | sequential
deriving DecidableEq, Repr

/-- `sequentialQuerySchema`: structured query for sequential mode. -/
structure SequentialQuery where
  query : String
  goal : String
  contextHint : Option String
deriving DecidableEq, Repr

/-- A value of the `queries` record: either a plain string or a
structured `SequentialQuery`. -/
inductive QueryValue
  | str (s : String)
  | seq (q : SequentialQuery)
deriving DecidableEq, Repr

/-- `candidates` entries of the classification schema (ambiguous plans). -/
structure PlanCandidate where
  planId : String
  label : String
  description : String
  targets : List String
  executionMode : ExecutionMode
deriving DecidableEq, Repr

/-- `classificationOutputSchema`: the execution plan produced by the
classifier.  The `queries` record is modelled as an association list keyed by
target id. -/
structure ClassificationOutput where
  type : PlanType
  targets : List String
  queries : List (String × QueryValue)
  reasoning : String
  executionMode : ExecutionMode
  clarifyQuestion : Option String := none
  candidates : Option (List PlanCandidate) := none
deriving DecidableEq, Repr

/-- `agentResultSchema`: the canonical result shape of every branch. -/
structure AgentResult where
  source : String
  content : String
  success : Bool
deriving DecidableEq, Repr

/-- `workflowStateSchema` (`state.ts`): shared state written by `agentStep`. -/
structure SharedState where
  executionTargets : List String
  executionMode : ExecutionMode
deriving DecidableEq, Repr

/-! ### MCP registry (`mcp-registry.ts`)

`description` and `classifierType` only feed the classifier prompt and are
omitted; `buildServerDef` is environment-dependent and is modelled in the
connection-manager section below. -/

structure McpServerRegistryEntry where
  id : String
  name : String
  agentId : String
  requiresFallback : Bool := false
  mcpId : Option String := none
deriving DecidableEq, Repr

/-- `MCP_REGISTRY` from `mcp-registry.ts`. -/
def MCP_REGISTRY : List McpServerRegistryEntry :=
  [ { id := "atlassian", name := "Atlassian (Confluence/Jira)",
      agentId := "atlassianAgent" },
    { id := "google-search", name := "Google Search",
      agentId := "googleSearchAgent" },
    { id := "datahub", name := "DataHub",
      agentId := "dataHubAgent", requiresFallback := true },
    { id := "data-analyst", name := "Data Analyst (Shaper Dashboard)",
      agentId := "dataAnalystAgent" } ]

/-- `getRegistryEntry`, parameterised by the registry it searches
(the source closes over the global `MCP_REGISTRY`). -/
def getRegistryEntry (registry : List McpServerRegistryEntry)
    (id : String) : Option McpServerRegistryEntry :=
  registry.find? (fun entry => entry.id == id)

/-- `getAllMcpIds`. -/
def getAllMcpIds : List String := MCP_REGISTRY.map (fun entry => entry.id)

/-! ### Classification validation (`classify-intent.ts`, lines 128-155) -/

/-- `validateClassification`: removes inactive MCP ids from an agent plan's
targets and downgrades the plan to `simple` when no target survives. -/
def validateClassification (result : ClassificationOutput)
    (activeMcpIds : List String) : ClassificationOutput :=
  if result.type ≠ PlanType.agent then result
  else
    let filteredTargets := result.targets.filter (fun t => activeMcpIds.contains t)
    if filteredTargets.isEmpty then
      { result with
        type := PlanType.simple
        targets := []
        queries := []
        reasoning := result.reasoning ++ " (모든 대상 Agent가 비활성 상태이므로 simple로 변경)" }
    else
      { result with targets := filteredTargets }

/-! ### Direct response step (`agent-steps.ts`, lines 28-39) -/

/-- `directResponseStep`: passes the classifier reasoning through. -/
def directResponseStep (inputData : ClassificationOutput) : AgentResult :=
  { source := "direct", content := inputData.reasoning, success := true }

/-! ### Agent execution orchestrator (`agent-steps.ts`, lines 50-181)

`agent.generate(prompt, { toolsets })` may throw; one behaviour of that
collaborator is a function `gen : String → String → GenResult` mapping the
agent id and the prompt to the outcome.  The `getToolsets` call made before
each invocation is designed never to throw (see the connection-manager
section) and does not influence control flow, so it does not appear here. -/

/-- Outcome of a single `agent.generate` call: returned text, or a thrown
exception carrying a message. -/
inductive GenResult
  | ok (text : String)
  | err (msg : String)
deriving DecidableEq, Repr

/-- One `agent.generate` call performed by the orchestrator: the target id it
was performed for, the prompt passed, and the outcome. -/
structure TraceEntry where
  target : String
  prompt : String
  outcome : GenResult
deriving DecidableEq, Repr

/-- `queries[target]` lookup (JS record access, `undefined` for a missing
key). -/
def lookupQuery (queries : List (String × QueryValue)) (target : String) :
    Option QueryValue :=
  (queries.find? (fun p => p.1 == target)).map (fun p => p.2)

/-- Sequential-path query resolution (`agent-steps.ts`, lines 104-108):
an object value is used as is, a string (or missing) value becomes
`{ query: rawQuery || userMessage, goal: "" }`. -/
def resolveQueryPlan (queries : List (String × QueryValue))
    (target userMessage : String) : SequentialQuery :=
  match lookupQuery queries target with
  | some (QueryValue.seq q) => q
  | some (QueryValue.str s) =>
      { query := if s == "" then userMessage else s, goal := "", contextHint := none }
  | none => { query := userMessage, goal := "", contextHint := none }

/-- Parallel-path query resolution (`agent-steps.ts`, lines 153-157):
an object value contributes its `query` field, a string (or missing) value
falls back to the user message when empty. -/
def resolveParallelQuery (queries : List (String × QueryValue))
    (target userMessage : String) : String :=
  match lookupQuery queries target with
  | some (QueryValue.seq q) => q.query
  | some (QueryValue.str s) => if s == "" then userMessage else s
  | none => userMessage

/-- Prompt construction of the sequential path (`agent-steps.ts`,
lines 110-124).  The JS conditions `previousResult && queryPlan.contextHint`
and `queryPlan.goal` test string truthiness. -/
def buildSequentialPrompt (previousResult : String)
    (queryPlan : SequentialQuery) : String :=
  if strTruthy previousResult ∧ optStrTruthy queryPlan.contextHint then
    "## 목표\n" ++ queryPlan.goal ++ "\n\n## 이전 단계 결과\n"
      ++ ("(참고할 정보: " ++ queryPlan.contextHint.getD "" ++ ")") ++ "\n"
      ++ previousResult ++ "\n\n## 요청\n" ++ queryPlan.query
  else if strTruthy previousResult then
    if strTruthy queryPlan.goal then
      "## 목표\n" ++ queryPlan.goal ++ "\n\n## 이전 단계 결과\n" ++ previousResult
        ++ "\n\n## 요청\n" ++ queryPlan.query
    else
      queryPlan.query ++ "\n\n## 이전 단계 결과\n" ++ previousResult
  else
    if strTruthy queryPlan.goal then
      "## 목표\n" ++ queryPlan.goal ++ "\n\n## 요청\n" ++ queryPlan.query
    else
      queryPlan.query

/-- Result of the sequential loop (`agent-steps.ts`, lines 92-133):
the exception that escaped it, if any (caught by the outer handler), the
contributions pushed onto `allResults`, and the `agent.generate` calls
performed, in order. -/
structure SeqOut where
  thrownMsg : Option String
  allResults : List String
  trace : List TraceEntry
deriving DecidableEq, Repr

/-- The `for (const target of activeTargets)` loop of the single/sequential
path.  A target without a registry entry is skipped (`continue`); a thrown
`agent.generate` stops the loop (there is no per-target catch on this path). -/
def seqLoop (registry : List McpServerRegistryEntry)
    (gen : String → String → GenResult)
    (queries : List (String × QueryValue)) (userMessage : String)
    (isSingle : Bool) : List String → String → SeqOut
  | [], _ => { thrownMsg := none, allResults := [], trace := [] }
  | target :: rest, previousResult =>
    match getRegistryEntry registry target with
    | none => seqLoop registry gen queries userMessage isSingle rest previousResult
    | some entry =>
      let queryPlan := resolveQueryPlan queries target userMessage
      let prompt := buildSequentialPrompt previousResult queryPlan
      match gen entry.agentId prompt with
      | GenResult.err msg =>
          { thrownMsg := some msg, allResults := [],
            trace := [{ target := target, prompt := prompt,
                        outcome := GenResult.err msg }] }
      | GenResult.ok text =>
          let contribution :=
            if isSingle then text else "[" ++ entry.name ++ "]\n" ++ text
          let restOut := seqLoop registry gen queries userMessage isSingle rest text
          { thrownMsg := restOut.thrownMsg,
            allResults := contribution :: restOut.allResults,
            trace := { target := target, prompt := prompt,
                       outcome := GenResult.ok text } :: restOut.trace }

/-- The `activeTargets.map(...)` array of the parallel path
(`agent-steps.ts`, lines 143-164): `none` models the `null` returned for a
target without a registry entry; a thrown `agent.generate` is caught
per-target and becomes an error-labelled string. -/
def parallelResults (registry : List McpServerRegistryEntry)
    (gen : String → String → GenResult)
    (queries : List (String × QueryValue)) (userMessage : String)
    (targets : List String) : List (Option String) :=
  targets.map (fun target =>
    match getRegistryEntry registry target with
    | none => none
    | some entry =>
      let query := resolveParallelQuery queries target userMessage
      match gen entry.agentId query with
      | GenResult.ok text => some ("[" ++ entry.name ++ "]\n" ++ text)
      | GenResult.err msg => some ("[" ++ entry.name ++ "]\n오류: " ++ msg))

/-- The `agent.generate` calls performed by the parallel path, one per target
that has a registry entry. -/
def parallelTrace (registry : List McpServerRegistryEntry)
    (gen : String → String → GenResult)
    (queries : List (String × QueryValue)) (userMessage : String)
    (targets : List String) : List TraceEntry :=
  targets.filterMap (fun target =>
    match getRegistryEntry registry target with
    | none => none
    | some entry =>
      let query := resolveParallelQuery queries target userMessage
      some { target := target, prompt := query, outcome := gen entry.agentId query })

/-- Full observable outcome of one `agentStep` execution: the returned
`AgentResult`, the shared state written by `setState` (if reached), and the
`agent.generate` calls performed. -/
structure AgentStepOutput where
  result : AgentResult
  stateUpdate : Option SharedState
  trace : List TraceEntry
deriving DecidableEq, Repr

/-- `agentStep` (`agent-steps.ts`, lines 50-181).  `registry` stands for the
global `MCP_REGISTRY` the source imports; `activeMcpIds` for the request
context value (defaulting to `getAllMcpIds()`); `gen` for the per-worker
execution collaborator; `userMessage` for `getInitData().message`. -/
def agentStep (registry : List McpServerRegistryEntry)
    (activeMcpIds : List String) (gen : String → String → GenResult)
    (inputData : ClassificationOutput) (userMessage : String) :
    AgentStepOutput :=
  let activeTargets := inputData.targets.filter (fun t => activeMcpIds.contains t)
  if activeTargets.isEmpty then
    { result := { source := "agent", content := "활성화된 대상 Agent가 없습니다.",
                  success := false },
      stateUpdate := none, trace := [] }
  else
    let sourceLabel :=
      if activeTargets.length == 1 then activeTargets.headD "" else "multi-agent"
    let st : SharedState :=
      { executionTargets := activeTargets, executionMode := inputData.executionMode }
    if activeTargets.length == 1 ∨ inputData.executionMode = ExecutionMode.sequential then
      let out := seqLoop registry gen inputData.queries userMessage
        (activeTargets.length == 1) activeTargets ""
      match out.thrownMsg with
      | some msg =>
          { result := { source := sourceLabel, content := "Agent 오류: " ++ msg,
                        success := false },
            stateUpdate := some st, trace := out.trace }
      | none =>
          let merged := joinSep "\n\n---\n\n" out.allResults
          { result := { source := sourceLabel,
                        content := if merged == "" then "결과를 생성하지 못했습니다." else merged,
                        success := merged.length > 0 },
            stateUpdate := some st, trace := out.trace }
    else
      let results := parallelResults registry gen inputData.queries userMessage activeTargets
      let merged := joinSep "\n\n---\n\n"
        ((results.filterMap id).filter (fun s => s != ""))
      { result := { source := sourceLabel,
                    content := if merged == "" then "결과를 생성하지 못했습니다." else merged,
                    success := merged.length > 0 },
        stateUpdate := some st,
        trace := parallelTrace registry gen inputData.queries userMessage activeTargets }

/-! ### Merge step of the multi-agent workflow variant (`merge-results.ts`) -/

/-- `mergeResultsStep`: merges the three fixed parallel branch outputs,
keeping only successful non-empty ones. -/
def mergeResultsStep (atlassianR googleR datahubR : AgentResult) : AgentResult :=
  let results := [atlassianR, googleR, datahubR].filter
    (fun r => r.success && r.content.length > 0)
  if results.isEmpty then
    { source := "multi-agent",
      content := "모든 Agent 호출에서 결과를 가져오지 못했습니다.", success := false }
  else
    { source := "multi-agent",
      content := joinSep "\n\n---\n\n"
        (results.map (fun r => "[" ++ r.source ++ "]\n" ++ r.content)),
      success := true }

/-! ### Quality gate (`quality-check.ts`)

The heuristic scorer works on JavaScript numbers; it only adds small decimal
constants and one exact division, so it is modelled with exact rationals.
JS `toLowerCase` is modelled by `Char.toLower` (they agree on ASCII). -/

/-- `MIN_CONTENT_LENGTH` (`quality-check.ts`, line 12). -/
def MIN_CONTENT_LENGTH : Nat := 20

/-- `QUALITY_THRESHOLD` (`quality-check.ts`, line 60; source value `0.95`). -/
def QUALITY_THRESHOLD : ℚ := 95 / 100

/-- Lowercase a character list (JS `toLowerCase`). -/
def lowerChars (l : List Char) : List Char := l.map Char.toLower

/-- Maximal non-whitespace runs of a character list.  Models JS
`split(/\s+/)` up to empty pieces, which the `length > 1` filter applied by
the caller drops anyway. -/
def wordsOfAux : List Char → List Char → List (List Char)
  | [], cur => if cur.isEmpty then [] else [cur.reverse]
  | c :: rest, cur =>
    if c.isWhitespace then
      if cur.isEmpty then wordsOfAux rest []
      else cur.reverse :: wordsOfAux rest []
    else wordsOfAux rest (c :: cur)

def wordsOf (l : List Char) : List (List Char) := wordsOfAux l []

/-- The regex test `/[-*]\s/.test(content)`: a `-` or `*` immediately
followed by whitespace. -/
def hasDashStarWs : List Char → Bool
  | c1 :: c2 :: rest =>
      ((c1 == '-' || c1 == '*') && c2.isWhitespace) || hasDashStarWs (c2 :: rest)
  | _ => false

/-- `computeQualityScore` (`quality-check.ts`, lines 23-57). -/
def computeQualityScore (content userMessage : String) : ℚ :=
  if (trimList content.data).isEmpty then 0
  else
    let len := (trimList content.data).length
    let lenScore : ℚ :=
      if len > 200 then 4/10
      else if len > 100 then 3/10
      else if len > MIN_CONTENT_LENGTH then 2/10
      else 1/10
    let keywords :=
      (wordsOf (lowerChars userMessage.data)).filter (fun w => w.length > 1)
    let contentLower := lowerChars content.data
    let kwScore : ℚ :=
      if keywords.length > 0 then
        (((keywords.filter (fun k => decide (k <:+: contentLower))).length : ℚ)
          / (keywords.length : ℚ)) * (3/10)
      else 3/10
    let structScore : ℚ :=
      (if content.data.contains '\n' then 1/10 else 0)
        + (if hasDashStarWs content.data then 1/10 else 0)
        + (if decide (containsStr content "http://")
              || decide (containsStr content "https://")
              || decide (containsStr content "urn:") then 1/10 else 0)
    min (lenScore + kwScore + structScore) 1

/-- `Number.prototype.toFixed(2)` for the nonnegative scores this gate
produces (round half up to two decimals). -/
def toFixed2 (q : ℚ) : String :=
  let r := q * 100 + 1/2
  let n : Int := r.num / (r.den : Int)
  toString (n / 100) ++ "." ++ (if n % 100 < 10 then "0" else "") ++ toString (n % 100)

/-- `SUSPEND_OPTIONS` (`quality-check.ts`, lines 63-67), as (value, label). -/
def SUSPEND_OPTIONS : List (String × String) :=
  [("refine", "추가 지시로 보완"), ("reroute", "다른 Agent로 전환"),
   ("new", "새 질문으로 시작")]

/-- Suspend payload of the quality gate (`suspendSchema`, availableAgents as
(value, label) pairs). -/
structure QcSuspendPayload where
  reason : String
  score : ℚ
  originalSource : String
  options : List (String × String)
  availableAgents : List (String × String)
deriving DecidableEq, Repr

/-- `buildSuspendPayload` (`quality-check.ts`, lines 70-89): reroute
candidates are the active registry entries other than the failing source. -/
def buildSuspendPayload (reason : String) (score : ℚ) (originalSource : String)
    (activeMcpIds : List String) : QcSuspendPayload :=
  let availableAgents :=
    (MCP_REGISTRY.filter
      (fun entry => entry.id != originalSource && activeMcpIds.contains entry.id)).map
      (fun entry => (entry.id, entry.name))
  { reason := reason, score := score, originalSource := originalSource,
    options := SUSPEND_OPTIONS, availableAgents := availableAgents }

/-- What one execution of the quality gate does: suspend with a payload, or
return a result to the next step. -/
inductive QcOutcome
  | suspend (payload : QcSuspendPayload)
  | ret (result : AgentResult)
deriving DecidableEq, Repr

/-- `qualityCheckStep` execute, no-resume path (`quality-check.ts`, lines
217-250).  The resume path (lines 147-215) runs only when resume data is
present and always returns without suspending; the claims below quantify over
gate executions without resume data, so only this path is embedded. -/
def qualityCheckStep (activeMcpIds : List String) (originalMessage : String)
    (inputData : AgentResult) : QcOutcome :=
  if !inputData.success || (trimList inputData.content.data).isEmpty then
    QcOutcome.suspend (buildSuspendPayload
      "Agent 실행이 실패했거나 결과가 비어있습니다." 0 inputData.source activeMcpIds)
  else if inputData.source == "direct" then
    QcOutcome.ret inputData
  else
    let score := computeQualityScore inputData.content originalMessage
    if score < QUALITY_THRESHOLD then
      QcOutcome.suspend (buildSuspendPayload
        ("결과 품질이 낮습니다 (score: " ++ toFixed2 score ++ ").")
        score inputData.source activeMcpIds)
    else
      QcOutcome.ret inputData

/-! ### Chat workflow pipeline (`chat-workflow.ts`)

The workflow is a linear pipeline: classify-intent, a two-way branch
(direct-response / agent-step), the output-normalising map, quality-check,
synthesize-response.  There is no loop combinator.  A suspend halts the run
at the suspending step; resume re-invokes that step's handler with resume
data and continues forward.  From the step sources: the quality-check resume
path always returns (its `resumeSchema` requires `action`); the
classify-intent resume path returns when the resume data carries `userAnswer`
or `selectedPlan`, and otherwise falls through to a fresh classification,
which may suspend again. -/

/-- Step ids of the pipeline, in execution order (`chat-workflow.ts`,
lines 161-182; the branch and map combinators are unnamed stages). -/
def chatWorkflowStageIds : List String :=
  ["classify-intent", "branch", "map", "quality-check", "synthesize-response"]

/-- Position of a run in the pipeline: about to execute stage `i` fresh,
suspended at stage `i`, or finished. -/
inductive WfPhase
  | atStage (i : Nat)
  | suspendedAt (i : Nat)
  | finished
deriving DecidableEq, Repr

/-- Run state: pipeline position plus the number of executions of the
quality-check (Scoring) stage so far.  Each completed
Planning→Execution→Scoring iteration ends in one such execution. -/
structure WfRunState where
  phase : WfPhase
  scoringRuns : Nat
deriving DecidableEq, Repr

/-- One step of the workflow engine on the chat pipeline.  Collaborator
outcomes (plan type, gate verdict, resume contents) are nondeterministic:
every choice appears as a constructor. -/
inductive WfStep : WfRunState → WfRunState → Prop
  | classifyReturn (q : Nat) :
      WfStep ⟨WfPhase.atStage 0, q⟩ ⟨WfPhase.atStage 1, q⟩
  | classifySuspend (q : Nat) :
      WfStep ⟨WfPhase.atStage 0, q⟩ ⟨WfPhase.suspendedAt 0, q⟩
  | classifyResume (q : Nat) :
      WfStep ⟨WfPhase.suspendedAt 0, q⟩ ⟨WfPhase.atStage 1, q⟩
  | classifyResuspend (q : Nat) :
      WfStep ⟨WfPhase.suspendedAt 0, q⟩ ⟨WfPhase.suspendedAt 0, q⟩
  | branchRun (q : Nat) :
      WfStep ⟨WfPhase.atStage 1, q⟩ ⟨WfPhase.atStage 2, q⟩
  | mapRun (q : Nat) :
      WfStep ⟨WfPhase.atStage 2, q⟩ ⟨WfPhase.atStage 3, q⟩
  | qualityReturn (q : Nat) :
      WfStep ⟨WfPhase.atStage 3, q⟩ ⟨WfPhase.atStage 4, q + 1⟩
  | qualitySuspend (q : Nat) :
      WfStep ⟨WfPhase.atStage 3, q⟩ ⟨WfPhase.suspendedAt 3, q + 1⟩
  | qualityResume (q : Nat) :
      WfStep ⟨WfPhase.suspendedAt 3, q⟩ ⟨WfPhase.atStage 4, q + 1⟩
  | synthesizeRun (q : Nat) :
      WfStep ⟨WfPhase.atStage 4, q⟩ ⟨WfPhase.finished, q⟩

/-- Initial state of a run. -/
def wfInit : WfRunState := ⟨WfPhase.atStage 0, 0⟩

/-- Reachability along engine steps. -/
def WfReach : WfRunState → WfRunState → Prop := Relation.ReflTransGen WfStep

/-! ### Lazy MCP connection manager (`connection-manager.ts`)

Per-call functional model.  The fallible collaborators are parameters of
`Except` type: `listCached` is the outcome of `cached.client.listToolsets()`,
`buildClient` that of constructing an `MCPClient` and calling its
`listToolsets()`, `buildFallback` that of `createDatahubFallbackTools()`.
`entryOf` stands for the registry lookup; its `buildServerDef` field is the
outcome of the factory call `entry.buildServerDef()`: the factory can itself
THROW (`buildAtlassianServer` runs `new URL(MCP_ATLASSIAN_URL)`, which throws
`TypeError: Invalid URL` on a malformed value), return null (unconfigured
environment), or return a server definition.  The factory call sits on
`connection-manager.ts` line 128, OUTSIDE the try block that starts at line
136, so a factory throw propagates out of `connect` and out of
`getToolsets`.  `builds` instruments the number of `MCPClient`
constructions. -/

/-- `idleTtlMs` (5 minutes, `connection-manager.ts` line 37). -/
def idleTtlMs : Nat := 5 * 60 * 1000

/-- A cache entry (the client object itself is not modelled; its
`listToolsets` outcome is the `listCached` parameter). -/
structure CachedConnection where
  lastUsed : Nat
deriving DecidableEq, Repr

/-- The registry data `getToolsets`/`connect` consult.  `buildServerDef` is
the outcome of calling the entry's factory: `Except.error` = the factory
threw, `Except.ok none` = it reported missing configuration (returned null),
`Except.ok (some _)` = it produced a server definition. -/
structure EntrySpec where
  requiresFallback : Bool
  buildServerDef : Except String (Option Unit)

/-- Manager state: the keyed connection cache, the DataHub fallback cache
(last-used time and cached toolsets), and build counters. -/
structure ManagerState where
  connections : String → Option CachedConnection
  fallbackCache : Option (Nat × List String)
  builds : Nat
  fallbackBuilds : Nat

/-- `disconnectOne` (errors from `client.disconnect()` are swallowed; the
net effect is removal from the map). -/
def disconnectOne (mcpId : String) (st : ManagerState) : ManagerState :=
  { st with connections := fun id =>
      if id == mcpId then none else st.connections id }

/-- `connect` (`connection-manager.ts`, lines 124-161).  The factory call
`entry.buildServerDef()` on line 128 is OUTSIDE the try block (line 136), so
a factory throw propagates; a null definition means an unconfigured service
(empty toolsets); a client build failure is caught inside the try and
degrades to empty toolsets; success caches the entry. -/
def connect (spec : EntrySpec) (buildClient : Except String (List String))
    (now : Nat) (mcpId : String) (st : ManagerState) :
    Except String (ManagerState × List String) :=
  match spec.buildServerDef with
  | Except.error e => Except.error e
  | Except.ok none => Except.ok (st, [])
  | Except.ok (some _) =>
    match buildClient with
    | Except.ok toolsets =>
        Except.ok
          ({ st with
              connections := fun id =>
                if id == mcpId then some { lastUsed := now } else st.connections id,
              builds := st.builds + 1 },
            toolsets)
    | Except.error _ =>
        Except.ok ({ st with builds := st.builds + 1 }, [])

/-- `buildAtlassianServer` (`mcp-registry.ts`, lines 59-85): with
`MCP_ATLASSIAN_URL` set it evaluates `new URL(MCP_ATLASSIAN_URL)` — which
throws `TypeError: Invalid URL` on a malformed value — before returning an
HTTP server definition; otherwise a set `CONFLUENCE_URL` yields a stdio
definition (no URL construction), and with neither it returns null.  WHATWG
URL parsing itself is not modelled: `urlValid` abstracts whether the
constructor accepts the string.  (`buildDatahubServer` contains the same URL
construction, but the datahub registry entry has `requiresFallback`, so
`getToolsets` routes it to the fallback path and never calls it.) -/
def buildAtlassianServer (mcpAtlassianUrl confluenceUrl : Option String)
    (urlValid : String → Bool) : Except String (Option Unit) :=
  match mcpAtlassianUrl with
  | some url =>
      if urlValid url then Except.ok (some ())
      else Except.error "TypeError: Invalid URL"
  | none =>
      match confluenceUrl with
      | some _ => Except.ok (some ())
      | none => Except.ok none

/-- `getFallbackToolsets` (`connection-manager.ts`, lines 169-200). -/
def getFallbackToolsets (buildFallback : Except String (List String))
    (now : Nat) (st : ManagerState) : ManagerState × List String :=
  match st.fallbackCache with
  | some (_, tools) => ({ st with fallbackCache := some (now, tools) }, tools)
  | none =>
    match buildFallback with
    | Except.ok tools =>
        ({ st with fallbackCache := some (now, tools),
                   fallbackBuilds := st.fallbackBuilds + 1 }, tools)
    | Except.error _ =>
        ({ st with fallbackBuilds := st.fallbackBuilds + 1 }, [])

/-- `getToolsets` (`connection-manager.ts`, lines 49-78).  A stale cached
connection (failing `listToolsets`) is dropped and rebuilt. -/
def getToolsets (entryOf : String → Option EntrySpec)
    (listCached buildClient buildFallback : Except String (List String))
    (now : Nat) (mcpId : String) (st : ManagerState) :
    Except String (ManagerState × List String) :=
  match entryOf mcpId with
  | none => Except.ok (st, [])
  | some entry =>
    if entry.requiresFallback then
      Except.ok (getFallbackToolsets buildFallback now st)
    else
      match st.connections mcpId with
      | some _ =>
        let st1 : ManagerState :=
          { st with connections := fun id =>
              if id == mcpId then some { lastUsed := now } else st.connections id }
        match listCached with
        | Except.ok ts => Except.ok (st1, ts)
        | Except.error _ => connect entry buildClient now mcpId (disconnectOne mcpId st1)
      | none => connect entry buildClient now mcpId st

/-- `cleanupIdle` (`connection-manager.ts`, lines 83-101): evicts every
entry whose idle time strictly exceeds the TTL, including the fallback
cache. -/
def cleanupIdle (now : Nat) (st : ManagerState) : ManagerState :=
  { st with
      connections := fun id =>
        match st.connections id with
        | some conn => if now - conn.lastUsed > idleTtlMs then none else some conn
        | none => none,
      fallbackCache :=
        match st.fallbackCache with
        | some (lastUsed, tools) =>
            if now - lastUsed > idleTtlMs then none else some (lastUsed, tools)
        | none => none }

/-! ### Interleaved model of two concurrent `getToolsets` calls

The per-call model above is atomic; concurrency claims need the `await`
boundary inside `getToolsets` made explicit.  For an id whose entry has no
fallback and a configured server, an uncached call runs two atomic segments:

* segment 1 (`connection-manager.ts` lines 62, 137-141): read the cache —
  miss — then construct an `MCPClient` and start `listToolsets()`; the
  `await` on line 143 then yields;
* segment 2 (lines 145-148): record the entry in the cache and return.

There is no in-flight guard between the cache read and the cache write, so
two tasks are modelled, each walking these segments, interleaved
arbitrarily.  A task that reads a filled cache returns without building
(lines 62-66; `listToolsets` assumed healthy). -/

/-- Program counter of one `getToolsets` task. -/
inductive TaskPc
  | start
  | building
  | done
deriving DecidableEq, Repr

/-- Shared cache flag for the one key under contention, the two task
counters, and the number of `MCPClient` constructions. -/
structure CmState where
  cacheFilled : Bool
  t1 : TaskPc
  t2 : TaskPc
  builds : Nat
deriving DecidableEq, Repr

/-- Interleaving semantics of the two concurrent calls: a task at `start`
that sees a filled cache returns without building; one that sees a miss
starts a build (client construction counted here); finishing a build fills
the cache. -/
inductive CmStep : CmState → CmState → Prop
  | t1Hit (p2 : TaskPc) (b : Nat) :
      CmStep ⟨true, TaskPc.start, p2, b⟩ ⟨true, TaskPc.done, p2, b⟩
  | t1Miss (p2 : TaskPc) (b : Nat) :
      CmStep ⟨false, TaskPc.start, p2, b⟩ ⟨false, TaskPc.building, p2, b + 1⟩
  | t1Finish (c : Bool) (p2 : TaskPc) (b : Nat) :
      CmStep ⟨c, TaskPc.building, p2, b⟩ ⟨true, TaskPc.done, p2, b⟩
  | t2Hit (p1 : TaskPc) (b : Nat) :
      CmStep ⟨true, p1, TaskPc.start, b⟩ ⟨true, p1, TaskPc.done, b⟩
  | t2Miss (p1 : TaskPc) (b : Nat) :
      CmStep ⟨false, p1, TaskPc.start, b⟩ ⟨false, p1, TaskPc.building, b + 1⟩
  | t2Finish (c : Bool) (p1 : TaskPc) (b : Nat) :
      CmStep ⟨c, p1, TaskPc.building, b⟩ ⟨true, p1, TaskPc.done, b⟩

/-- Both tasks about to acquire the same uncached id. -/
def cmInit : CmState :=
  { cacheFilled := false, t1 := TaskPc.start, t2 := TaskPc.start, builds := 0 }

/-- Reachability under arbitrary interleaving. -/
def CmReach : CmState → CmState → Prop := Relation.ReflTransGen CmStep

/-! ### Bounds used by the invariant proofs -/

/-- Upper bound on scoring executions as a function of pipeline position:
quality-check has not run before its stage is reached, has run once when
suspended there, and at most twice (fresh run plus one resume) afterwards. -/
def wfScoringBound : WfPhase → Nat
  | WfPhase.atStage i => if i ≤ 3 then 0 else 2
  | WfPhase.suspendedAt i => if i = 0 then 0 else 1
  | WfPhase.finished => 2

/-- 0/1 weight of a task: has it left its initial segment (and hence
possibly built)? -/
def cmWeight : TaskPc → Nat
  | TaskPc.start => 0
  | TaskPc.building => 1
  | TaskPc.done => 1

/-! ## Helper lemmas -/

theorem data_append (a b : String) : (a ++ b).data = a.data ++ b.data := by
  cases a; cases b; rfl

theorem containsStr_rfl (s : String) : containsStr s s := List.infix_refl _

theorem containsStr_empty (s : String) : containsStr s "" := List.nil_infix

theorem containsStr_appendL {b pat : String} (a : String) (h : containsStr b pat) :
    containsStr (a ++ b) pat := by
  unfold containsStr at *
  rw [data_append]
  exact h.trans (List.suffix_append _ _).isInfix

theorem containsStr_appendR {a pat : String} (b : String) (h : containsStr a pat) :
    containsStr (a ++ b) pat := by
  unfold containsStr at *
  rw [data_append]
  exact h.trans (List.prefix_append _ _).isInfix

theorem containsStr_build {s x pat y : String} (hs : s = x ++ (pat ++ y)) :
    containsStr s pat := by
  subst hs
  exact containsStr_appendL x (containsStr_appendR y (containsStr_rfl pat))

theorem containsStr_head {s pat y : String} (hs : s = pat ++ y) : containsStr s pat := by
  subst hs
  exact containsStr_appendR y (containsStr_rfl pat)

theorem containsStr_tail {s x pat : String} (hs : s = x ++ pat) : containsStr s pat := by
  subst hs
  exact containsStr_appendL x (containsStr_rfl pat)

theorem str_ne_empty_of_length_pos {s : String} (h : 0 < s.length) : s ≠ "" := by
  intro he
  subst he
  simp at h

theorem append_length_pos_left {a : String} (b : String) (h : 0 < a.length) :
    0 < (a ++ b).length := by
  rw [String.length_append]
  omega

/-- A string that is not truthy is empty. -/
theorem eq_empty_of_not_truthy {s : String} (h : ¬ strTruthy s = true) : s = "" := by
  unfold strTruthy at h
  simpa using h

/-! ## Claim C1 -/

/-- Every target mentioned in a sequential-loop trace comes from the target
list the loop was run on. -/
theorem seqLoop_trace_targets (registry : List McpServerRegistryEntry)
    (gen : String → String → GenResult) (queries : List (String × QueryValue))
    (userMessage : String) (isSingle : Bool) :
    ∀ (targets : List String) (prev : String) (e : TraceEntry),
      e ∈ (seqLoop registry gen queries userMessage isSingle targets prev).trace →
      e.target ∈ targets := by
  intro targets
  induction targets with
  | nil => intro prev e he; simp [seqLoop] at he
  | cons t rest ih =>
    intro prev e he
    rcases hentry : getRegistryEntry registry t with _ | entry
    · rw [seqLoop, hentry] at he
      exact List.mem_cons_of_mem _ (ih prev e he)
    · rcases hgen : gen entry.agentId
          (buildSequentialPrompt prev (resolveQueryPlan queries t userMessage)) with text | msg
      · simp only [seqLoop, hentry, hgen, List.mem_cons] at he
        rcases he with he | he
        · subst he; exact List.mem_cons_self _ _
        · exact List.mem_cons_of_mem _ (ih _ e he)
      · simp only [seqLoop, hentry, hgen, List.mem_singleton] at he
        subst he
        exact List.mem_cons_self _ _

/-- Every target mentioned in a parallel trace comes from the target list. -/
theorem parallelTrace_targets (registry : List McpServerRegistryEntry)
    (gen : String → String → GenResult) (queries : List (String × QueryValue))
    (userMessage : String) (targets : List String) (e : TraceEntry)
    (he : e ∈ parallelTrace registry gen queries userMessage targets) :
    e.target ∈ targets := by
  unfold parallelTrace at he
  rw [List.mem_filterMap] at he
  obtain ⟨t, ht, hft⟩ := he
  rcases hentry : getRegistryEntry registry t with _ | entry <;> rw [hentry] at hft
  · simp at hft
  · simp only [Option.some.injEq] at hft
    subst hft
    exact ht

/-- C1: for every classification result of type `agent`, validation keeps
only active targets; if filtering empties the targets the plan is rewritten
to `simple` with empty targets and queries; and every `agent.generate` call
the orchestrator step performs is for a target in the active set. -/
theorem C1_validation_filters_targets (result : ClassificationOutput)
    (activeMcpIds : List String) :
    (result.type = PlanType.agent →
      (∀ t ∈ (validateClassification result activeMcpIds).targets,
        activeMcpIds.contains t = true) ∧
      (result.targets.filter (fun t => activeMcpIds.contains t) = [] →
        (validateClassification result activeMcpIds).type = PlanType.simple ∧
        (validateClassification result activeMcpIds).targets = [] ∧
        (validateClassification result activeMcpIds).queries = [])) ∧
    (∀ (registry : List McpServerRegistryEntry)
        (gen : String → String → GenResult) (input : ClassificationOutput)
        (msg : String) (e : TraceEntry),
      e ∈ (agentStep registry activeMcpIds gen input msg).trace →
      activeMcpIds.contains e.target = true) := by
  constructor
  · intro htype
    constructor
    · intro t ht
      simp only [validateClassification, htype, ne_eq, not_true_eq_false, if_false] at ht
      cases hempty : (result.targets.filter (fun t => activeMcpIds.contains t)).isEmpty with
      | true => simp only [hempty, if_true] at ht; simp at ht
      | false =>
        simp only [hempty, Bool.false_eq_true, if_false] at ht
        exact (List.mem_filter.mp ht).2
    · intro hnil
      simp only [validateClassification, htype, ne_eq, not_true_eq_false, if_false, hnil]
      simp
  · intro registry gen input msg e he
    simp only [agentStep] at he
    cases hempty : (input.targets.filter (fun t => activeMcpIds.contains t)).isEmpty with
    | true => simp only [hempty, if_true] at he; simp at he
    | false =>
      simp only [hempty, Bool.false_eq_true, if_false] at he
      by_cases hcond :
          ((input.targets.filter (fun t => activeMcpIds.contains t)).length == 1) = true
            ∨ input.executionMode = ExecutionMode.sequential
      · rw [if_pos hcond] at he
        have hmem :
            e.target ∈ input.targets.filter (fun t => activeMcpIds.contains t) := by
          rcases hthr : (seqLoop registry gen input.queries msg
              ((input.targets.filter (fun t => activeMcpIds.contains t)).length == 1)
              (input.targets.filter (fun t => activeMcpIds.contains t)) "").thrownMsg
              with _ | m <;>
            rw [hthr] at he <;>
            exact seqLoop_trace_targets registry gen input.queries msg _ _ _ e he
        exact (List.mem_filter.mp hmem).2
      · rw [if_neg hcond] at he
        have hmem := parallelTrace_targets registry gen input.queries msg _ e he
        exact (List.mem_filter.mp hmem).2

/-- Witness for C1 at a concrete plan, active set and collaborator. -/
theorem C1_validation_filters_targets_witness :
    (validateClassification
      { type := PlanType.agent, targets := ["atlassian", "ghost"],
        queries := [("atlassian", QueryValue.str "q")], reasoning := "r",
        executionMode := ExecutionMode.parallel } ["atlassian"]).targets
      = ["atlassian"] ∧
    (validateClassification
      { type := PlanType.agent, targets := ["ghost"], queries := [],
        reasoning := "r", executionMode := ExecutionMode.parallel }
      ["atlassian"]).type = PlanType.simple := by
  have h1 := (C1_validation_filters_targets
    { type := PlanType.agent, targets := ["atlassian", "ghost"],
      queries := [("atlassian", QueryValue.str "q")], reasoning := "r",
      executionMode := ExecutionMode.parallel } ["atlassian"]).1 rfl
  have h2 := (C1_validation_filters_targets
    { type := PlanType.agent, targets := ["ghost"], queries := [],
      reasoning := "r", executionMode := ExecutionMode.parallel }
    ["atlassian"]).1 rfl
  refine ⟨by decide, (h2.2 (by decide)).1⟩

/-! ## Claim C7 -/

/-- C7: an `AgentResult` whose success flag is false or whose content is
empty makes the gate suspend, with score 0 and a payload whose
`originalSource` identifies the failing source (and whose reason describes
the failure); the gate neither passes the result on nor raises. -/
theorem C7_gate_suspends_on_failure (activeMcpIds : List String)
    (originalMessage : String) (r : AgentResult)
    (h : r.success = false ∨ r.content = "") :
    ∃ payload,
      qualityCheckStep activeMcpIds originalMessage r = QcOutcome.suspend payload ∧
      payload.score = 0 ∧
      payload.originalSource = r.source ∧
      payload.reason = "Agent 실행이 실패했거나 결과가 비어있습니다." := by
  have hcond : (!r.success || (trimList r.content.data).isEmpty) = true := by
    rcases h with h | h
    · rw [h]; rfl
    · rw [h]
      simp [trimList, Bool.or_true]
  refine ⟨buildSuspendPayload "Agent 실행이 실패했거나 결과가 비어있습니다." 0
    r.source activeMcpIds, ?_, rfl, rfl, rfl⟩
  simp only [qualityCheckStep, hcond, if_true]

/-- Witness for C7: a failed atlassian result suspends with score 0 and the
failing source in the payload. -/
theorem C7_gate_suspends_on_failure_witness :
    ∃ payload,
      qualityCheckStep getAllMcpIds "hi"
        { source := "atlassian", content := "", success := false } =
        QcOutcome.suspend payload ∧
      payload.score = 0 ∧
      payload.originalSource = "atlassian" ∧
      payload.reason = "Agent 실행이 실패했거나 결과가 비어있습니다." :=
  C7_gate_suspends_on_failure getAllMcpIds "hi"
    { source := "atlassian", content := "", success := false } (Or.inl rfl)

/-! ## Claim C8 -/

/-- C8 counterexample: the claim says every `direct` result skips evaluation
and is returned unchanged, but the rule-based failure check runs first
(`quality-check.ts` line 218 before line 230): a `direct` result with empty
content is suspended, not returned. -/
theorem C8_counterexample_direct_empty_suspends :
    qualityCheckStep getAllMcpIds "hi"
      { source := "direct", content := "", success := true } =
      QcOutcome.suspend
        { reason := "Agent 실행이 실패했거나 결과가 비어있습니다.", score := 0,
          originalSource := "direct", options := SUSPEND_OPTIONS,
          availableAgents :=
            [("atlassian", "Atlassian (Confluence/Jira)"),
             ("google-search", "Google Search"), ("datahub", "DataHub"),
             ("data-analyst", "Data Analyst (Shaper Dashboard)")] } := by
  decide

/-- C8 (amended): a `direct` result that passes the rule-based failure check
(success flag true, content not all-whitespace) skips evaluation entirely:
the gate returns the input unchanged, computing no score and not
suspending. -/
theorem C8_direct_skips_evaluation (activeMcpIds : List String)
    (originalMessage : String) (r : AgentResult)
    (hsource : r.source = "direct") (hsuccess : r.success = true)
    (hcontent : (trimList r.content.data).isEmpty = false) :
    qualityCheckStep activeMcpIds originalMessage r = QcOutcome.ret r := by
  have hcond : (!r.success || (trimList r.content.data).isEmpty) = false := by
    rw [hsuccess, hcontent]
    rfl
  have hdir : (r.source == "direct") = true := by
    rw [hsource]; rfl
  simp only [qualityCheckStep, hcond, Bool.false_eq_true, if_false, hdir, if_true]

/-- Witness for C8 (amended): a healthy direct greeting is returned
unchanged. -/
theorem C8_direct_skips_evaluation_witness :
    qualityCheckStep getAllMcpIds "hi"
      { source := "direct", content := "안녕하세요! 무엇을 도와드릴까요?", success := true } =
      QcOutcome.ret
        { source := "direct", content := "안녕하세요! 무엇을 도와드릴까요?", success := true } :=
  C8_direct_skips_evaluation getAllMcpIds "hi"
    { source := "direct", content := "안녕하세요! 무엇을 도와드릴까요?", success := true }
    rfl rfl (by decide)

/-! ## Claim C5 -/

/-- Invariant: along any run, the scoring counter stays within the
position-indexed bound. -/
theorem wfReach_scoringRuns_le_bound (s : WfRunState) (h : WfReach wfInit s) :
    s.scoringRuns ≤ wfScoringBound s.phase := by
  induction h with
  | refl => simp [wfInit, wfScoringBound]
  | tail _ step ih =>
    cases step <;> simp [wfScoringBound] at ih ⊢ <;> omega

/-- C5: for any behaviour of the collaborators (hence in particular for an
input whose results never score above the threshold), the chat pipeline
executes its Scoring stage at most 3 times in one run, after which the run
can only move to synthesis or termination.  The pipeline of
`chat-workflow.ts` contains no retry loop, so the count is in fact at most
2 (one fresh execution plus at most one resume). -/
theorem C5_scoring_cycle_bounded (s : WfRunState) (h : WfReach wfInit s) :
    s.scoringRuns ≤ 3 := by
  have hb := wfReach_scoringRuns_le_bound s h
  have : wfScoringBound s.phase ≤ 2 := by
    rcases s with ⟨phase, q⟩
    rcases phase with i | i | _ <;> simp [wfScoringBound] <;> split <;> omega
  omega

/-- Witness for C5: a complete run that suspends once at classification and
once at the quality gate reaches the final state with 2 scoring executions,
within the bound. -/
theorem C5_scoring_cycle_bounded_witness :
    WfReach wfInit ⟨WfPhase.finished, 2⟩ ∧
    (⟨WfPhase.finished, 2⟩ : WfRunState).scoringRuns ≤ 3 := by
  have hpath : WfReach wfInit ⟨WfPhase.finished, 2⟩ := by
    refine Relation.ReflTransGen.head (WfStep.classifySuspend 0) ?_
    refine Relation.ReflTransGen.head (WfStep.classifyResuspend 0) ?_
    refine Relation.ReflTransGen.head (WfStep.classifyResume 0) ?_
    refine Relation.ReflTransGen.head (WfStep.branchRun 0) ?_
    refine Relation.ReflTransGen.head (WfStep.mapRun 0) ?_
    refine Relation.ReflTransGen.head (WfStep.qualitySuspend 0) ?_
    refine Relation.ReflTransGen.head (WfStep.qualityResume 1) ?_
    exact Relation.ReflTransGen.single (WfStep.synthesizeRun 2)
  exact ⟨hpath, C5_scoring_cycle_bounded _ hpath⟩

/-! ## Claim C9 -/

/-- `connect` never propagates an exception once the factory itself has
returned: the unconfigured-service case and a client-build failure are both
absorbed. -/
theorem connect_ok (spec : EntrySpec) (buildClient : Except String (List String))
    (now : Nat) (mcpId : String) (st : ManagerState) (d : Option Unit)
    (hsd : spec.buildServerDef = Except.ok d) :
    ∃ out, connect spec buildClient now mcpId st = Except.ok out := by
  unfold connect
  rw [hsd]
  rcases d with _ | u
  · exact ⟨(st, []), rfl⟩
  · rcases buildClient with msg | ts
    · exact ⟨_, rfl⟩
    · exact ⟨_, rfl⟩

/-- C9 counterexample: the factory call `entry.buildServerDef()` sits on
`connection-manager.ts` line 128, OUTSIDE `connect`'s try block (line 136),
and `buildAtlassianServer` evaluates `new URL(MCP_ATLASSIAN_URL)`, which
throws `TypeError: Invalid URL` on a malformed value — so `getToolsets`
for "atlassian" on a cold cache propagates that exception to its caller
instead of returning an empty toolset, refuting "acquire never throws". -/
theorem C9_counterexample_factory_throw_propagates :
    buildAtlassianServer (some "::not a url::") none (fun _ => false) =
      Except.error "TypeError: Invalid URL" ∧
    getToolsets
      (fun i => if i == "atlassian"
        then some { requiresFallback := false,
                    buildServerDef :=
                      buildAtlassianServer (some "::not a url::") none (fun _ => false) }
        else none)
      (Except.ok []) (Except.ok []) (Except.ok []) 0 "atlassian"
      { connections := fun _ => none, fallbackCache := none,
        builds := 0, fallbackBuilds := 0 } =
      Except.error "TypeError: Invalid URL" := by
  exact ⟨rfl, rfl⟩

/-- C9 (amended): `getToolsets` never throws PROVIDED the registry factory
itself returns rather than throwing — the factory throw happens only for a
malformed `MCP_*_URL` environment value, because `buildServerDef()` is
called outside `connect`'s try block (see the counterexample).  Under that
proviso, whatever the cached client, the client build or the fallback build
do, the call always returns, and an unknown id, a factory-reported missing
configuration, and a failed client build all degrade to an empty toolset
instead of aborting the caller. -/
theorem C9_getToolsets_degrades_without_throwing
    (entryOf : String → Option EntrySpec)
    (listCached buildClient buildFallback : Except String (List String))
    (now : Nat) (mcpId : String) (st : ManagerState)
    (hfac : ∀ e, entryOf mcpId = some e → ∃ d, e.buildServerDef = Except.ok d) :
    (∃ out, getToolsets entryOf listCached buildClient buildFallback now mcpId st
        = Except.ok out) ∧
    (entryOf mcpId = none →
      getToolsets entryOf listCached buildClient buildFallback now mcpId st
        = Except.ok (st, [])) ∧
    (∀ e, entryOf mcpId = some e → e.requiresFallback = false →
      st.connections mcpId = none → e.buildServerDef = Except.ok none →
      getToolsets entryOf listCached buildClient buildFallback now mcpId st
        = Except.ok (st, [])) ∧
    (∀ e msg, entryOf mcpId = some e → e.requiresFallback = false →
      st.connections mcpId = none → e.buildServerDef = Except.ok (some ()) →
      buildClient = Except.error msg →
      ∃ st2, getToolsets entryOf listCached buildClient buildFallback now mcpId st
        = Except.ok (st2, [])) := by
  refine ⟨?_, ?_, ?_, ?_⟩
  · rcases he : entryOf mcpId with _ | e
    · exact ⟨(st, []), by simp [getToolsets, he]⟩
    · obtain ⟨d, hd⟩ := hfac e he
      by_cases hf : e.requiresFallback = true
      · exact ⟨getFallbackToolsets buildFallback now st, by simp [getToolsets, he, hf]⟩
      · rw [Bool.not_eq_true] at hf
        rcases hc : st.connections mcpId with _ | conn
        · simp only [getToolsets, he, hf, Bool.false_eq_true, if_false, hc]
          exact connect_ok e buildClient now mcpId st d hd
        · rcases hl : listCached with msg | ts
          · simp only [getToolsets, he, hf, Bool.false_eq_true, if_false, hc, hl]
            exact connect_ok e buildClient now mcpId _ d hd
          · simp only [getToolsets, he, hf, Bool.false_eq_true, if_false, hc, hl]
            exact ⟨_, rfl⟩
  · intro he
    simp [getToolsets, he]
  · intro e he hf hc hsd
    simp [getToolsets, he, hf, hc, connect, hsd]
  · intro e msg he hf hc hsd hbc
    simp only [getToolsets, he, hf, Bool.false_eq_true, if_false, hc, connect, hsd, hbc]
    exact ⟨_, rfl⟩

/-- Witness for C9 (amended): with non-throwing factories, an unknown
service id yields an empty toolset; a factory-reported missing
configuration yields an empty toolset; a failed client build yields an
empty toolset. -/
theorem C9_getToolsets_degrades_without_throwing_witness :
    (getToolsets (fun _ => none) (Except.ok []) (Except.ok []) (Except.ok [])
      0 "ghost" { connections := fun _ => none, fallbackCache := none,
                  builds := 0, fallbackBuilds := 0 }
      = Except.ok ({ connections := fun _ => none, fallbackCache := none,
                     builds := 0, fallbackBuilds := 0 }, [])) ∧
    (getToolsets
      (fun _ => some { requiresFallback := false, buildServerDef := Except.ok none })
      (Except.ok []) (Except.ok []) (Except.ok [])
      0 "data-analyst" { connections := fun _ => none, fallbackCache := none,
                         builds := 0, fallbackBuilds := 0 }
      = Except.ok ({ connections := fun _ => none, fallbackCache := none,
                     builds := 0, fallbackBuilds := 0 }, [])) ∧
    (∃ st2, getToolsets
      (fun _ => some { requiresFallback := false,
                       buildServerDef := Except.ok (some ()) })
      (Except.ok []) (Except.error "ECONNREFUSED") (Except.ok [])
      0 "atlassian" { connections := fun _ => none, fallbackCache := none,
                      builds := 0, fallbackBuilds := 0 }
      = Except.ok (st2, [])) := by
  refine ⟨?_, ?_, ?_⟩
  · exact (C9_getToolsets_degrades_without_throwing (fun _ => none) (Except.ok [])
      (Except.ok []) (Except.ok []) 0 "ghost" _ (fun e he => by simp at he)).2.1 rfl
  · exact ((C9_getToolsets_degrades_without_throwing
      (fun _ => some { requiresFallback := false, buildServerDef := Except.ok none })
      (Except.ok []) (Except.ok []) (Except.ok []) 0 "data-analyst" _
      (fun e he => by
        rw [Option.some.injEq] at he
        subst he
        exact ⟨none, rfl⟩)).2.2.1)
      { requiresFallback := false, buildServerDef := Except.ok none } rfl rfl rfl rfl
  · exact ((C9_getToolsets_degrades_without_throwing
      (fun _ => some { requiresFallback := false,
                       buildServerDef := Except.ok (some ()) })
      (Except.ok []) (Except.error "ECONNREFUSED") (Except.ok []) 0 "atlassian" _
      (fun e he => by
        rw [Option.some.injEq] at he
        subst he
        exact ⟨some (), rfl⟩)).2.2.2)
      { requiresFallback := false, buildServerDef := Except.ok (some ()) }
      "ECONNREFUSED" rfl rfl rfl rfl rfl

/-! ## Claim C10 -/

/-- C10: an entry idle longer than the TTL is evicted by the sweep and
absent from the cache; the next `getToolsets` for that id rebuilds the
connection (one new client build, fresh `lastUsed`); and a `getToolsets`
that hits a still-cached entry refreshes its `lastUsed` timestamp without
building. -/
theorem C10_ttl_eviction_and_refresh (st : ManagerState) (id : String)
    (conn : CachedConnection) (now later : Nat)
    (entryOf : String → Option EntrySpec) (e : EntrySpec)
    (listCached buildClient buildFallback : Except String (List String))
    (ts : List String)
    (hconn : st.connections id = some conn)
    (hidle : now - conn.lastUsed > idleTtlMs)
    (hentry : entryOf id = some e) (hnf : e.requiresFallback = false)
    (hsd : e.buildServerDef = Except.ok (some ())) (hbc : buildClient = Except.ok ts) :
    ((cleanupIdle now st).connections id = none) ∧
    (∃ st2, getToolsets entryOf listCached buildClient buildFallback later id
        (cleanupIdle now st) = Except.ok (st2, ts) ∧
      st2.builds = st.builds + 1 ∧
      st2.connections id = some { lastUsed := later }) ∧
    (∀ (st' : ManagerState) (conn' : CachedConnection) (ts' : List String),
      st'.connections id = some conn' → listCached = Except.ok ts' →
      ∃ st3, getToolsets entryOf listCached buildClient buildFallback now id st'
          = Except.ok (st3, ts') ∧
        st3.connections id = some { lastUsed := now } ∧
        st3.builds = st'.builds) := by
  have hevict : (cleanupIdle now st).connections id = none := by
    simp only [cleanupIdle, hconn]
    rw [if_pos hidle]
  refine ⟨hevict, ?_, ?_⟩
  · simp only [getToolsets, hentry, hnf, Bool.false_eq_true, if_false, hevict,
      connect, hsd, hbc]
    exact ⟨_, rfl, by simp [cleanupIdle], by simp⟩
  · intro st' conn' ts' hconn' hlc
    simp only [getToolsets, hentry, hnf, Bool.false_eq_true, if_false, hconn', hlc]
    exact ⟨_, rfl, by simp, rfl⟩

/-- Witness for C10 at a concrete state: an entry last used at time 0 is
evicted by a sweep at time `idleTtlMs + 1`, the next acquire rebuilds it,
and an acquire on a fresh cache entry refreshes its timestamp. -/
theorem C10_ttl_eviction_and_refresh_witness :
    ((cleanupIdle 300001
        { connections := fun i => if i == "atlassian" then some { lastUsed := 0 } else none,
          fallbackCache := none, builds := 0, fallbackBuilds := 0 }).connections
      "atlassian" = none) ∧
    (∃ st2, getToolsets
        (fun i => if i == "atlassian"
          then some { requiresFallback := false,
                      buildServerDef := Except.ok (some ()) } else none)
        (Except.ok ["cached"]) (Except.ok ["fresh"]) (Except.ok [])
        300002 "atlassian"
        (cleanupIdle 300001
          { connections := fun i => if i == "atlassian" then some { lastUsed := 0 } else none,
            fallbackCache := none, builds := 0, fallbackBuilds := 0 })
        = Except.ok (st2, ["fresh"]) ∧
      st2.builds = 1 ∧
      st2.connections "atlassian" = some { lastUsed := 300002 }) := by
  have h := C10_ttl_eviction_and_refresh
    { connections := fun i => if i == "atlassian" then some { lastUsed := 0 } else none,
      fallbackCache := none, builds := 0, fallbackBuilds := 0 }
    "atlassian" { lastUsed := 0 } 300001 300002
    (fun i => if i == "atlassian"
      then some { requiresFallback := false,
                  buildServerDef := Except.ok (some ()) } else none)
    { requiresFallback := false, buildServerDef := Except.ok (some ()) }
    (Except.ok ["cached"]) (Except.ok ["fresh"]) (Except.ok []) ["fresh"]
    rfl (by norm_num [idleTtlMs]) rfl rfl rfl rfl
  exact ⟨h.1, h.2.1⟩

/-! ## Claim C6 -/

/-- C6 counterexample: `getToolsets` has no single-flight guard (no
in-flight promise map between the cache read on line 62 and the cache write
on line 145 of `connection-manager.ts`), so the interleaving in which both
tasks read the cache before either write completes two acquires for the same
uncached id with TWO client builds, refuting "exactly one backing build". -/
theorem C6_counterexample_double_build :
    CmReach cmInit
      { cacheFilled := true, t1 := TaskPc.done, t2 := TaskPc.done, builds := 2 } := by
  refine Relation.ReflTransGen.head (CmStep.t1Miss TaskPc.start 0) ?_
  refine Relation.ReflTransGen.head (CmStep.t2Miss TaskPc.building 1) ?_
  refine Relation.ReflTransGen.head (CmStep.t1Finish false TaskPc.building 2) ?_
  exact Relation.ReflTransGen.single (CmStep.t2Finish true TaskPc.done 2)

/-- Invariant of the two-task interleaving: once a task is done the cache is
filled, and the number of builds never exceeds the number of tasks that have
left their initial segment. -/
theorem cmReach_invariant (s : CmState) (h : CmReach cmInit s) :
    ((s.t1 = TaskPc.done ∨ s.t2 = TaskPc.done) → s.cacheFilled = true) ∧
    s.builds ≤ cmWeight s.t1 + cmWeight s.t2 := by
  induction h with
  | refl => simp [cmInit, cmWeight]
  | tail _ step ih =>
    cases step with
    | t1Hit p2 b =>
      exact ⟨fun _ => rfl, by
        have h2 := ih.2
        cases p2 <;> simp [cmWeight] at h2 ⊢ <;> omega⟩
    | t1Miss p2 b =>
      refine ⟨fun hd => ?_, ?_⟩
      · rcases hd with hd | hd
        · exact absurd hd (by simp)
        · exact ih.1 (Or.inr hd)
      · have h2 := ih.2
        cases p2 <;> simp [cmWeight] at h2 ⊢ <;> omega
    | t1Finish c p2 b =>
      exact ⟨fun _ => rfl, by
        have h2 := ih.2
        cases p2 <;> simp [cmWeight] at h2 ⊢ <;> omega⟩
    | t2Hit p1 b =>
      exact ⟨fun _ => rfl, by
        have h2 := ih.2
        cases p1 <;> simp [cmWeight] at h2 ⊢ <;> omega⟩
    | t2Miss p1 b =>
      refine ⟨fun hd => ?_, ?_⟩
      · rcases hd with hd | hd
        · exact ih.1 (Or.inl hd)
        · exact absurd hd (by simp)
      · have h2 := ih.2
        cases p1 <;> simp [cmWeight] at h2 ⊢ <;> omega
    | t2Finish c p1 b =>
      exact ⟨fun _ => rfl, by
        have h2 := ih.2
        cases p1 <;> simp [cmWeight] at h2 ⊢ <;> omega⟩

/-- C6 (amended): concurrent `getToolsets` calls for the same uncached id
are NOT single-flight — each caller that observes a cache miss starts its
own build, so two concurrent callers perform up to two backing builds (and
can perform exactly two, see the counterexample) — but never more than one
build per caller; and once any caller has completed, the entry is cached and
no later step of the other caller builds again. -/
theorem C6_no_single_flight_bounded_builds :
    (∀ s, CmReach cmInit s → s.builds ≤ 2) ∧
    (∀ s s', CmReach cmInit s → (s.t1 = TaskPc.done ∨ s.t2 = TaskPc.done) →
      CmStep s s' → s'.builds = s.builds) := by
  constructor
  · intro s h
    have hi := (cmReach_invariant s h).2
    have h1 : cmWeight s.t1 ≤ 1 := by cases s.t1 <;> simp [cmWeight]
    have h2 : cmWeight s.t2 ≤ 1 := by cases s.t2 <;> simp [cmWeight]
    omega
  · intro s s' h hdone step
    have hcache : s.cacheFilled = true := (cmReach_invariant s h).1 hdone
    cases step <;> simp_all

/-- Witness for C6 (amended) at concrete reachable states: the initial state
has at most 2 builds, and after task 1 has completed (one build, cache
filled), task 2's cache read adds no build. -/
theorem C6_no_single_flight_bounded_builds_witness :
    cmInit.builds ≤ 2 ∧
    ({ cacheFilled := true, t1 := TaskPc.done, t2 := TaskPc.done,
       builds := 1 } : CmState).builds =
      ({ cacheFilled := true, t1 := TaskPc.done, t2 := TaskPc.start,
         builds := 1 } : CmState).builds := by
  have hreach : CmReach cmInit
      { cacheFilled := true, t1 := TaskPc.done, t2 := TaskPc.start, builds := 1 } := by
    refine Relation.ReflTransGen.head (CmStep.t1Miss TaskPc.start 0) ?_
    exact Relation.ReflTransGen.single (CmStep.t1Finish false TaskPc.start 1)
  refine ⟨C6_no_single_flight_bounded_builds.1 cmInit Relation.ReflTransGen.refl, ?_⟩
  exact C6_no_single_flight_bounded_builds.2 _ _ hreach (Or.inl rfl)
    (CmStep.t2Hit TaskPc.done 1)

/-! ## Claim C2 -/

theorem strLength_pos_iff (s : String) : 0 < s.length ↔ s ≠ "" := by
  constructor
  · intro h he
    subst he
    simp at h
  · intro h
    cases s with
    | mk data =>
      cases data with
      | nil => exact absurd rfl h
      | cons c cs => simp [String.length]

/-- Joining a non-empty list of non-empty strings yields a non-empty
string. -/
theorem joinSep_ne_empty (sep : String) (l : List String) (hne : l ≠ [])
    (h : ∀ s ∈ l, s ≠ "") : joinSep sep l ≠ "" := by
  cases l with
  | nil => exact absurd rfl hne
  | cons x xs =>
    have hx : x ≠ "" := h x (List.mem_cons_self x xs)
    have hxpos : 0 < x.length := (strLength_pos_iff x).mpr hx
    cases xs with
    | nil => exact hx
    | cons y ys =>
      rw [joinSep]
      refine (strLength_pos_iff _).mp ?_
      exact append_length_pos_left _ (append_length_pos_left _ hxpos)

/-- Every contribution the parallel path collects is a non-empty labelled
string. -/
theorem parallelResults_mem_ne_empty (registry : List McpServerRegistryEntry)
    (gen : String → String → GenResult) (queries : List (String × QueryValue))
    (msg : String) (targets : List String) (c : String)
    (hc : c ∈ (parallelResults registry gen queries msg targets).filterMap id) :
    c ≠ "" := by
  rw [parallelResults, List.filterMap_map, List.mem_filterMap] at hc
  obtain ⟨t, ht, hft⟩ := hc
  have hbr : 0 < ("[" : String).length := by decide
  rcases he : getRegistryEntry registry t with _ | entry <;>
    simp only [Function.comp, he, id] at hft
  · exact absurd hft (by simp)
  · rcases hg : gen entry.agentId (resolveParallelQuery queries t msg) with text | m <;>
      rw [hg] at hft <;>
      rw [Option.some.injEq] at hft <;>
      subst hft <;>
      exact (strLength_pos_iff _).mp
        (append_length_pos_left _ (append_length_pos_left _
          (append_length_pos_left _ hbr)))

/-- The contribution list of the parallel path is empty exactly when no
target has a registry entry. -/
theorem parallelContribs_eq_nil_iff (registry : List McpServerRegistryEntry)
    (gen : String → String → GenResult) (queries : List (String × QueryValue))
    (msg : String) (targets : List String) :
    (parallelResults registry gen queries msg targets).filterMap id = [] ↔
      ∀ t ∈ targets, getRegistryEntry registry t = none := by
  rw [parallelResults, List.filterMap_map, List.filterMap_eq_nil_iff]
  constructor
  · intro h t ht
    have hn := h t ht
    rcases he : getRegistryEntry registry t with _ | entry
    · rfl
    · exfalso
      simp only [Function.comp, he, id] at hn
      rcases hg : gen entry.agentId (resolveParallelQuery queries t msg) with text | m <;>
        rw [hg] at hn <;> exact absurd hn (by simp)
  · intro h t ht
    simp [Function.comp, h t ht]

/-- The `success` flag of the parallel path is true exactly when some active
target has a registry entry — independently of whether any invocation
succeeded, since a caught per-target exception still contributes a labelled
error string. -/
theorem agentStep_parallel_success_iff (registry : List McpServerRegistryEntry)
    (activeMcpIds : List String) (gen : String → String → GenResult)
    (input : ClassificationOutput) (msg : String)
    (hmode : input.executionMode = ExecutionMode.parallel)
    (hlen : ((input.targets.filter (fun t => activeMcpIds.contains t)).length == 1) = false) :
    (agentStep registry activeMcpIds gen input msg).result.success = true ↔
      ∃ t ∈ input.targets.filter (fun t => activeMcpIds.contains t),
        (getRegistryEntry registry t).isSome = true := by
  cases hempty : (input.targets.filter (fun t => activeMcpIds.contains t)).isEmpty with
  | true =>
    have hnil := List.isEmpty_iff.mp hempty
    simp only [agentStep, hempty, if_true]
    rw [hnil]
    simp
  | false =>
    have hcond : ¬(((input.targets.filter (fun t => activeMcpIds.contains t)).length == 1) = true
        ∨ input.executionMode = ExecutionMode.sequential) := by
      rintro (h | h)
      · rw [hlen] at h
        simp at h
      · rw [hmode] at h
        exact ExecutionMode.noConfusion h
    simp only [agentStep, hempty, Bool.false_eq_true, if_false, if_neg hcond]
    rw [decide_eq_true_eq, gt_iff_lt]
    have hne : ∀ c ∈ (parallelResults registry gen input.queries msg
        (input.targets.filter (fun t => activeMcpIds.contains t))).filterMap id, c ≠ "" :=
      fun c hc => parallelResults_mem_ne_empty registry gen input.queries msg _ c hc
    have hfilter : ((parallelResults registry gen input.queries msg
          (input.targets.filter (fun t => activeMcpIds.contains t))).filterMap id).filter
        (fun s => s != "") =
        (parallelResults registry gen input.queries msg
          (input.targets.filter (fun t => activeMcpIds.contains t))).filterMap id :=
      List.filter_eq_self.mpr (fun c hc => by simp [hne c hc])
    rw [hfilter]
    rw [strLength_pos_iff]
    constructor
    · intro hmerged
      by_contra hno
      push_neg at hno
      have hallnone : ∀ t ∈ input.targets.filter (fun t => activeMcpIds.contains t),
          getRegistryEntry registry t = none := by
        intro t ht
        have := hno t ht
        rcases he : getRegistryEntry registry t with _ | entry
        · rfl
        · exact absurd (by simp [he]) this
      have hnil := (parallelContribs_eq_nil_iff registry gen input.queries msg _).mpr hallnone
      rw [hnil] at hmerged
      exact hmerged rfl
    · intro ⟨t, ht, hsome⟩
      have hcontribs : (parallelResults registry gen input.queries msg
          (input.targets.filter (fun t => activeMcpIds.contains t))).filterMap id ≠ [] := by
        intro hnil
        have := (parallelContribs_eq_nil_iff registry gen input.queries msg _).mp hnil t ht
        rw [this] at hsome
        simp at hsome
      exact joinSep_ne_empty _ _ hcontribs hne

/-- The merge step of the multi-agent variant: its `success` is true exactly
when at least one branch succeeded with non-empty content. -/
theorem mergeResultsStep_success_iff (a g d : AgentResult) :
    (mergeResultsStep a g d).success = true ↔
      ((a.success = true ∧ a.content ≠ "") ∨ (g.success = true ∧ g.content ≠ "")
        ∨ (d.success = true ∧ d.content ≠ "")) := by
  have key : ∀ r : AgentResult, (r.success && decide (r.content.length > 0)) = true ↔
      (r.success = true ∧ r.content ≠ "") := by
    intro r
    rw [Bool.and_eq_true, decide_eq_true_eq]
    exact and_congr_right (fun _ => strLength_pos_iff r.content)
  cases he : ([a, g, d].filter fun r => r.success && decide (r.content.length > 0)).isEmpty with
  | true =>
    have hnil := List.isEmpty_iff.mp he
    rw [List.filter_eq_nil_iff] at hnil
    simp only [mergeResultsStep, he, if_true]
    constructor
    · intro hfalse
      exact absurd hfalse (by simp)
    · rintro (⟨h1, h2⟩ | ⟨h1, h2⟩ | ⟨h1, h2⟩)
      · exact absurd ((key a).mpr ⟨h1, h2⟩) (hnil a (by simp))
      · exact absurd ((key g).mpr ⟨h1, h2⟩) (hnil g (by simp))
      · exact absurd ((key d).mpr ⟨h1, h2⟩) (hnil d (by simp))
  | false =>
    simp only [mergeResultsStep, he, Bool.false_eq_true, if_false]
    constructor
    · intro _
      have hne : ([a, g, d].filter fun r => r.success && decide (r.content.length > 0)) ≠ [] := by
        intro hnil
        rw [hnil] at he
        simp at he
      have hex : ∃ r ∈ [a, g, d], (r.success && decide (r.content.length > 0)) = true := by
        by_contra hno
        push_neg at hno
        exact hne (List.filter_eq_nil_iff.mpr (fun r hr => by simp [hno r hr]))
      obtain ⟨r, hr, hpr⟩ := hex
      simp only [List.mem_cons, List.not_mem_nil, or_false] at hr
      rcases hr with hr | hr | hr <;> subst hr
      · exact Or.inl ((key _).mp hpr)
      · exact Or.inr (Or.inl ((key _).mp hpr))
      · exact Or.inr (Or.inr ((key _).mp hpr))
    · intro _
      trivial

/-- C2 counterexample: two parallel targets whose invocations BOTH throw
still produce `success = true`, because each caught exception contributes an
error-labelled string and the flag only tests that the merged content is
non-empty (`agent-steps.ts` lines 160-170).  This refutes "success is true
iff at least one target invocation succeeded" for the live `agentStep`
path. -/
theorem C2_counterexample_all_fail_success_true :
    (agentStep MCP_REGISTRY getAllMcpIds (fun _ _ => GenResult.err "boom")
      { type := PlanType.agent, targets := ["atlassian", "google-search"],
        queries := [("atlassian", QueryValue.str "qa"),
                    ("google-search", QueryValue.str "qb")],
        reasoning := "", executionMode := ExecutionMode.parallel } "msg").trace =
      [{ target := "atlassian", prompt := "qa", outcome := GenResult.err "boom" },
       { target := "google-search", prompt := "qb", outcome := GenResult.err "boom" }] ∧
    (agentStep MCP_REGISTRY getAllMcpIds (fun _ _ => GenResult.err "boom")
      { type := PlanType.agent, targets := ["atlassian", "google-search"],
        queries := [("atlassian", QueryValue.str "qa"),
                    ("google-search", QueryValue.str "qb")],
        reasoning := "", executionMode := ExecutionMode.parallel } "msg").result.success
      = true := by
  decide

/-- C2 (amended): in the live `agentStep` parallel path, the overall
`success` flag is true iff at least one active target has a registry entry
(every such target contributes a labelled string — a successful output or a
caught-error label); the flag is invariant under any permutation of the
targets (hence of the per-target outcomes); in the `mergeResultsStep`
variant of the multi-agent workflow, `success` is true iff at least one
branch succeeded with non-empty content, which is symmetric in the three
branch results. -/
theorem C2_parallel_success_semantics (registry : List McpServerRegistryEntry)
    (activeMcpIds : List String) (gen : String → String → GenResult)
    (msg : String) (input input₂ : ClassificationOutput)
    (hmode : input.executionMode = ExecutionMode.parallel)
    (hlen : ((input.targets.filter (fun t => activeMcpIds.contains t)).length == 1) = false) :
    ((agentStep registry activeMcpIds gen input msg).result.success = true ↔
      ∃ t ∈ input.targets.filter (fun t => activeMcpIds.contains t),
        (getRegistryEntry registry t).isSome = true) ∧
    (input₂.executionMode = ExecutionMode.parallel → input₂.targets.Perm input.targets →
      (agentStep registry activeMcpIds gen input₂ msg).result.success =
        (agentStep registry activeMcpIds gen input msg).result.success) ∧
    (∀ a g d : AgentResult,
      (mergeResultsStep a g d).success = true ↔
        ((a.success = true ∧ a.content ≠ "") ∨ (g.success = true ∧ g.content ≠ "")
          ∨ (d.success = true ∧ d.content ≠ ""))) := by
  refine ⟨agentStep_parallel_success_iff registry activeMcpIds gen input msg hmode hlen,
    ?_, mergeResultsStep_success_iff⟩
  intro hmode₂ hperm
  have hpf : (input₂.targets.filter (fun t => activeMcpIds.contains t)).Perm
      (input.targets.filter (fun t => activeMcpIds.contains t)) :=
    hperm.filter (fun t => activeMcpIds.contains t)
  have hlen₂ : ((input₂.targets.filter (fun t => activeMcpIds.contains t)).length == 1) = false := by
    rw [hpf.length_eq]
    exact hlen
  have h₂ := agentStep_parallel_success_iff registry activeMcpIds gen input₂ msg hmode₂ hlen₂
  have h₁ := agentStep_parallel_success_iff registry activeMcpIds gen input msg hmode hlen
  have hex : (∃ t ∈ input₂.targets.filter (fun t => activeMcpIds.contains t),
      (getRegistryEntry registry t).isSome = true) ↔
      (∃ t ∈ input.targets.filter (fun t => activeMcpIds.contains t),
        (getRegistryEntry registry t).isSome = true) := by
    constructor
    · rintro ⟨t, ht, hs⟩
      exact ⟨t, hpf.mem_iff.mp ht, hs⟩
    · rintro ⟨t, ht, hs⟩
      exact ⟨t, hpf.mem_iff.mpr ht, hs⟩
  have hiff := (h₂.trans hex).trans h₁.symm
  cases hb₂ : (agentStep registry activeMcpIds gen input₂ msg).result.success <;>
    cases hb₁ : (agentStep registry activeMcpIds gen input msg).result.success <;>
    rw [hb₂, hb₁] at hiff <;> simp_all

/-- Witness for C2 (amended): one active registered target makes the
parallel success flag true. -/
theorem C2_parallel_success_semantics_witness :
    (agentStep MCP_REGISTRY getAllMcpIds (fun _ _ => GenResult.ok "ok")
      { type := PlanType.agent, targets := ["atlassian", "google-search"],
        queries := [], reasoning := "", executionMode := ExecutionMode.parallel }
      "msg").result.success = true :=
  (C2_parallel_success_semantics MCP_REGISTRY getAllMcpIds
    (fun _ _ => GenResult.ok "ok") "msg"
    { type := PlanType.agent, targets := ["atlassian", "google-search"],
      queries := [], reasoning := "", executionMode := ExecutionMode.parallel }
    { type := PlanType.agent, targets := ["atlassian", "google-search"],
      queries := [], reasoning := "", executionMode := ExecutionMode.parallel }
    rfl (by decide)).1.mpr ⟨"atlassian", by decide, by decide⟩

/-! ## Claim C3 -/

/-- Explicit-boundary variant of `containsStr_build` for positional use. -/
theorem containsStr_piece (x pat y : String) {s : String}
    (hs : s = x ++ pat ++ y) : containsStr s pat := by
  subst hs
  exact containsStr_appendR y (containsStr_appendL x (containsStr_rfl pat))

/-- With an empty previous result the prompt uses only the step's own goal
and query (the first-step shape). -/
theorem buildSequentialPrompt_empty_prev (q : SequentialQuery) :
    buildSequentialPrompt "" q =
      if strTruthy q.goal = true
      then "## 목표\n" ++ q.goal ++ "\n\n## 요청\n" ++ q.query
      else q.query := by
  have h : strTruthy "" = false := rfl
  rw [buildSequentialPrompt, if_neg (fun hc => by rw [h] at hc; exact absurd hc.1 (by simp)),
    if_neg (fun hc => by rw [h] at hc; exact absurd hc (by simp))]

/-- Every sequential prompt contains the previous step's output verbatim
(trivially when it is empty). -/
theorem buildSequentialPrompt_contains_prev (prev : String) (q : SequentialQuery) :
    containsStr (buildSequentialPrompt prev q) prev := by
  by_cases h1 : strTruthy prev = true
  · by_cases h2 : optStrTruthy q.contextHint = true
    · rw [buildSequentialPrompt, if_pos ⟨h1, h2⟩]
      exact containsStr_piece
        ("## 목표\n" ++ q.goal ++ "\n\n## 이전 단계 결과\n"
          ++ ("(참고할 정보: " ++ q.contextHint.getD "" ++ ")") ++ "\n")
        prev ("\n\n## 요청\n" ++ q.query) (by simp [String.append_assoc])
    · rw [buildSequentialPrompt, if_neg (fun hc => h2 hc.2), if_pos h1]
      by_cases h3 : strTruthy q.goal = true
      · rw [if_pos h3]
        exact containsStr_piece ("## 목표\n" ++ q.goal ++ "\n\n## 이전 단계 결과\n")
          prev ("\n\n## 요청\n" ++ q.query) (by simp [String.append_assoc])
      · rw [if_neg h3]
        exact containsStr_tail rfl
  · rw [eq_empty_of_not_truthy h1]
    exact containsStr_empty _

/-- Shape of the prompt when the previous output is non-empty and the query
carries a (truthy) context hint. -/
theorem buildSequentialPrompt_hint (prev : String) (q : SequentialQuery)
    (hint : String) (h1 : strTruthy prev = true) (hh : q.contextHint = some hint)
    (hne : strTruthy hint = true) :
    buildSequentialPrompt prev q =
      "## 목표\n" ++ q.goal ++ "\n\n## 이전 단계 결과\n"
        ++ ("(참고할 정보: " ++ hint ++ ")") ++ "\n"
        ++ prev ++ "\n\n## 요청\n" ++ q.query := by
  rw [buildSequentialPrompt, if_pos ⟨h1, by simp [optStrTruthy, hh, hne]⟩, hh,
    Option.getD_some]

/-- In the hint case the prompt contains the goal, the context-hint framing,
and the current query. -/
theorem buildSequentialPrompt_hint_contains (prev : String) (q : SequentialQuery)
    (hint : String) (h1 : strTruthy prev = true) (hh : q.contextHint = some hint)
    (hne : strTruthy hint = true) :
    containsStr (buildSequentialPrompt prev q) q.goal ∧
    containsStr (buildSequentialPrompt prev q) ("(참고할 정보: " ++ hint ++ ")") ∧
    containsStr (buildSequentialPrompt prev q) q.query := by
  rw [buildSequentialPrompt_hint prev q hint h1 hh hne]
  refine ⟨?_, ?_, ?_⟩
  · exact containsStr_piece "## 목표\n" q.goal
      ("\n\n## 이전 단계 결과\n" ++ ("(참고할 정보: " ++ hint ++ ")") ++ "\n"
        ++ prev ++ "\n\n## 요청\n" ++ q.query) (by simp only [String.append_assoc])
  · exact containsStr_piece ("## 목표\n" ++ q.goal ++ "\n\n## 이전 단계 결과\n")
      ("(참고할 정보: " ++ hint ++ ")")
      ("\n" ++ prev ++ "\n\n## 요청\n" ++ q.query) (by simp only [String.append_assoc])
  · exact containsStr_tail rfl

/-- Structure of the sequential-loop trace: the first call's prompt is built
from the loop's incoming previous result; and for any two adjacent calls the
earlier one returned text `ta` and the later one's prompt is built from
`ta`. -/
theorem seqLoop_trace_chain (registry : List McpServerRegistryEntry)
    (gen : String → String → GenResult) (queries : List (String × QueryValue))
    (userMessage : String) (isSingle : Bool) :
    ∀ (targets : List String) (prev : String),
      (∀ e rest,
        (seqLoop registry gen queries userMessage isSingle targets prev).trace = e :: rest →
        e.prompt = buildSequentialPrompt prev (resolveQueryPlan queries e.target userMessage)) ∧
      (∀ pre a b post,
        (seqLoop registry gen queries userMessage isSingle targets prev).trace
          = pre ++ a :: b :: post →
        ∃ ta, a.outcome = GenResult.ok ta ∧
          b.prompt = buildSequentialPrompt ta (resolveQueryPlan queries b.target userMessage)) := by
  intro targets
  induction targets with
  | nil =>
    intro prev
    constructor
    · intro e rest he
      simp [seqLoop] at he
    · intro pre a b post he
      simp [seqLoop] at he
  | cons t rest ih =>
    intro prev
    rcases hentry : getRegistryEntry registry t with _ | entry
    · constructor
      · intro e r he
        simp only [seqLoop, hentry] at he
        exact (ih prev).1 e r he
      · intro pre a b post he
        simp only [seqLoop, hentry] at he
        exact (ih prev).2 pre a b post he
    · rcases hgen : gen entry.agentId
          (buildSequentialPrompt prev (resolveQueryPlan queries t userMessage)) with text | m
      · constructor
        · intro e r he
          simp only [seqLoop, hentry, hgen, List.cons.injEq] at he
          rw [← he.1]
        · intro pre a b post he
          simp only [seqLoop, hentry, hgen] at he
          cases pre with
          | nil =>
            simp only [List.nil_append, List.cons.injEq] at he
            refine ⟨text, ?_, ?_⟩
            · rw [← he.1]
            · exact (ih text).1 b post he.2
          | cons p pre' =>
            simp only [List.cons_append, List.cons.injEq] at he
            exact (ih text).2 pre' a b post he.2
      · constructor
        · intro e r he
          simp only [seqLoop, hentry, hgen, List.cons.injEq] at he
          rw [← he.1]
        · intro pre a b post he
          simp only [seqLoop, hentry, hgen] at he
          cases pre with
          | nil => simp at he
          | cons p pre' =>
            simp only [List.cons_append, List.cons.injEq] at he
            exact absurd he.2 (by simp)

/-- Under the hypotheses that select the single/sequential path, the trace
of `agentStep` is the trace of the sequential loop over the active
targets. -/
theorem agentStep_seq_trace (registry : List McpServerRegistryEntry)
    (activeMcpIds : List String) (gen : String → String → GenResult)
    (input : ClassificationOutput) (msg : String)
    (hempty : (input.targets.filter (fun t => activeMcpIds.contains t)).isEmpty = false)
    (hcond : ((input.targets.filter (fun t => activeMcpIds.contains t)).length == 1) = true
      ∨ input.executionMode = ExecutionMode.sequential) :
    (agentStep registry activeMcpIds gen input msg).trace =
      (seqLoop registry gen input.queries msg
        ((input.targets.filter (fun t => activeMcpIds.contains t)).length == 1)
        (input.targets.filter (fun t => activeMcpIds.contains t)) "").trace := by
  simp only [agentStep, hempty, Bool.false_eq_true, if_false, if_pos hcond]
  rcases hthr : (seqLoop registry gen input.queries msg
      ((input.targets.filter (fun t => activeMcpIds.contains t)).length == 1)
      (input.targets.filter (fun t => activeMcpIds.contains t)) "").thrownMsg with _ | m <;>
    rfl

/-- C3 counterexample: in a sequential run whose first step returns EMPTY
text, the second step's query carries `contextHint = "X"`, yet its prompt is
built as a first-step prompt (goal and query only) because the JS condition
`previousResult && queryPlan.contextHint` is falsy — the prompt does not
contain the hint framing, refuting "for every target i>0 whose query carries
a contextHint, the prompt contains the goal, the contextHint framing, and
the previous step's output". -/
theorem C3_counterexample_empty_prev_drops_hint :
    (agentStep MCP_REGISTRY getAllMcpIds (fun _ _ => GenResult.ok "")
      { type := PlanType.agent, targets := ["atlassian", "google-search"],
        queries := [("atlassian", QueryValue.str "qa"),
                    ("google-search", QueryValue.seq
                      { query := "qb", goal := "G", contextHint := some "X" })],
        reasoning := "", executionMode := ExecutionMode.sequential } "msg").trace =
      [{ target := "atlassian", prompt := "qa", outcome := GenResult.ok "" },
       { target := "google-search", prompt := "## 목표\nG\n\n## 요청\nqb",
         outcome := GenResult.ok "" }] ∧
    ¬ containsStr "## 목표\nG\n\n## 요청\nqb" "X" := by
  decide

/-- C3 (amended): in every sequential execution with N ≥ 2 active targets,
the first executed call's prompt is built from the empty previous result —
i.e. only from its own goal and query; for adjacent calls the earlier call
returned text `ta`, the later call's prompt is `buildSequentialPrompt ta`
of its own query plan, that prompt contains `ta` verbatim (trivially when
`ta` is empty), and when the later query carries a non-empty `contextHint`
AND `ta` is non-empty the prompt contains the goal, the hint framing
`(참고할 정보: hint)`, and the query. -/
theorem C3_sequential_prompt_chaining (registry : List McpServerRegistryEntry)
    (activeMcpIds : List String) (gen : String → String → GenResult)
    (input : ClassificationOutput) (msg : String)
    (hmode : input.executionMode = ExecutionMode.sequential)
    (hlen : 2 ≤ (input.targets.filter (fun t => activeMcpIds.contains t)).length) :
    (∀ e rest, (agentStep registry activeMcpIds gen input msg).trace = e :: rest →
      e.prompt =
        (if strTruthy (resolveQueryPlan input.queries e.target msg).goal = true
         then "## 목표\n" ++ (resolveQueryPlan input.queries e.target msg).goal
           ++ "\n\n## 요청\n" ++ (resolveQueryPlan input.queries e.target msg).query
         else (resolveQueryPlan input.queries e.target msg).query)) ∧
    (∀ pre a b post,
      (agentStep registry activeMcpIds gen input msg).trace = pre ++ a :: b :: post →
      ∃ ta, a.outcome = GenResult.ok ta ∧
        b.prompt = buildSequentialPrompt ta (resolveQueryPlan input.queries b.target msg) ∧
        containsStr b.prompt ta ∧
        (∀ hint, (resolveQueryPlan input.queries b.target msg).contextHint = some hint →
          hint ≠ "" → ta ≠ "" →
          containsStr b.prompt (resolveQueryPlan input.queries b.target msg).goal ∧
          containsStr b.prompt ("(참고할 정보: " ++ hint ++ ")") ∧
          containsStr b.prompt (resolveQueryPlan input.queries b.target msg).query)) := by
  have hempty : (input.targets.filter (fun t => activeMcpIds.contains t)).isEmpty = false := by
    cases h : (input.targets.filter (fun t => activeMcpIds.contains t)).isEmpty with
    | true =>
      rw [List.isEmpty_iff.mp h] at hlen
      simp at hlen
    | false => rfl
  have htr := agentStep_seq_trace registry activeMcpIds gen input msg hempty (Or.inr hmode)
  have hchain := seqLoop_trace_chain registry gen input.queries msg
    ((input.targets.filter (fun t => activeMcpIds.contains t)).length == 1)
    (input.targets.filter (fun t => activeMcpIds.contains t)) ""
  constructor
  · intro e rest he
    rw [htr] at he
    have h1 := hchain.1 e rest he
    rw [h1, buildSequentialPrompt_empty_prev]
  · intro pre a b post he
    rw [htr] at he
    obtain ⟨ta, hta, hbp⟩ := hchain.2 pre a b post he
    refine ⟨ta, hta, hbp, ?_, ?_⟩
    · rw [hbp]
      exact buildSequentialPrompt_contains_prev ta _
    · intro hint hh hhne htane
      have h1 : strTruthy ta = true := by simp [strTruthy, htane]
      have h2 : strTruthy hint = true := by simp [strTruthy, hhne]
      rw [hbp]
      exact buildSequentialPrompt_hint_contains ta _ hint h1 hh h2

/-- Witness for C3 (amended): with a non-empty first output "OUT" and a
second query carrying hint "X", the second prompt contains "OUT" and the
hint framing. -/
theorem C3_sequential_prompt_chaining_witness :
    containsStr "## 목표\nG\n\n## 이전 단계 결과\n(참고할 정보: X)\nOUT\n\n## 요청\nqb" "OUT" ∧
    containsStr "## 목표\nG\n\n## 이전 단계 결과\n(참고할 정보: X)\nOUT\n\n## 요청\nqb"
      "(참고할 정보: X)" := by
  have h := (C3_sequential_prompt_chaining MCP_REGISTRY getAllMcpIds
      (fun _ _ => GenResult.ok "OUT")
      { type := PlanType.agent, targets := ["atlassian", "google-search"],
        queries := [("atlassian", QueryValue.str "qa"),
                    ("google-search", QueryValue.seq
                      { query := "qb", goal := "G", contextHint := some "X" })],
        reasoning := "", executionMode := ExecutionMode.sequential } "msg"
      rfl (by decide)).2
    [] { target := "atlassian", prompt := "qa", outcome := GenResult.ok "OUT" }
    { target := "google-search",
      prompt := "## 목표\nG\n\n## 이전 단계 결과\n(참고할 정보: X)\nOUT\n\n## 요청\nqb",
      outcome := GenResult.ok "OUT" }
    [] (by decide)
  obtain ⟨ta, hta, hbp, hcont, hhint⟩ := h
  have hta' : ta = "OUT" := by
    have := hta.symm
    injection this
  subst hta'
  have hx := hhint "X" rfl (by decide) (by decide)
  exact ⟨hcont, hx.2.1⟩

/-! ## Claim C4 -/

/-- Every element of a joined list occurs verbatim in the joined string. -/
theorem containsStr_joinSep (sep : String) (l : List String) (a : String)
    (ha : a ∈ l) : containsStr (joinSep sep l) a := by
  induction l with
  | nil => simp at ha
  | cons x xs ih =>
    cases xs with
    | nil =>
      simp only [List.mem_singleton] at ha
      subst ha
      exact containsStr_rfl a
    | cons y ys =>
      rcases List.mem_cons.mp ha with h | h
      · subst h
        rw [joinSep]
        exact containsStr_appendR _ (containsStr_appendR _ (containsStr_rfl a))
      · rw [joinSep]
        exact containsStr_appendL _ (ih h)

/-- The parallel path invokes exactly the targets that have a registry
entry, in order — regardless of which invocations throw. -/
theorem parallelTrace_map_target (registry : List McpServerRegistryEntry)
    (gen : String → String → GenResult) (queries : List (String × QueryValue))
    (msg : String) :
    ∀ targets, (parallelTrace registry gen queries msg targets).map (fun e => e.target) =
      targets.filter (fun t => (getRegistryEntry registry t).isSome) := by
  intro targets
  induction targets with
  | nil => rfl
  | cons t rest ih =>
    rcases he : getRegistryEntry registry t with _ | entry <;>
      simp only [parallelTrace, List.filterMap_cons, he, List.filter_cons] at ih ⊢ <;>
      simp [he, ih]

/-- A thrown call inside the sequential loop surfaces as the loop's thrown
message (and therefore aborts it). -/
theorem seqLoop_err_thrown (registry : List McpServerRegistryEntry)
    (gen : String → String → GenResult) (queries : List (String × QueryValue))
    (userMessage : String) (isSingle : Bool) :
    ∀ targets prev e m,
      e ∈ (seqLoop registry gen queries userMessage isSingle targets prev).trace →
      e.outcome = GenResult.err m →
      (seqLoop registry gen queries userMessage isSingle targets prev).thrownMsg = some m := by
  intro targets
  induction targets with
  | nil =>
    intro prev e m he _
    simp [seqLoop] at he
  | cons t rest ih =>
    intro prev e m he hout
    rcases hentry : getRegistryEntry registry t with _ | entry
    · simp only [seqLoop, hentry] at he ⊢
      exact ih prev e m he hout
    · rcases hgen : gen entry.agentId
          (buildSequentialPrompt prev (resolveQueryPlan queries t userMessage)) with text | m'
      · simp only [seqLoop, hentry, hgen, List.mem_cons] at he ⊢
        rcases he with he | he
        · subst he
          simp at hout
        · exact ih text e m he hout
      · simp only [seqLoop, hentry, hgen, List.mem_singleton] at he ⊢
        subst he
        simp only [GenResult.err.injEq] at hout
        rw [hout]

/-- C4 counterexample: in sequential mode there is no per-target catch
(`agent-steps.ts` lines 85-140 vs. the parallel path's lines 148-162): the
first target's exception reaches the outer handler, the whole step returns a
failure result and the second chain target is never invoked (the trace has a
single entry), refuting "the remaining targets of the batch or chain still
execute". -/
theorem C4_counterexample_sequential_abort :
    agentStep MCP_REGISTRY getAllMcpIds (fun _ _ => GenResult.err "boom")
      { type := PlanType.agent, targets := ["atlassian", "google-search"],
        queries := [("atlassian", QueryValue.str "qa")],
        reasoning := "", executionMode := ExecutionMode.sequential } "msg" =
      { result := { source := "multi-agent", content := "Agent 오류: boom",
                    success := false },
        stateUpdate := some { executionTargets := ["atlassian", "google-search"],
                              executionMode := ExecutionMode.sequential },
        trace := [{ target := "atlassian", prompt := "qa",
                    outcome := GenResult.err "boom" }] } := by
  decide

/-- C4 (amended): the orchestrator always returns an `AgentResult` (every
exception is absorbed); in PARALLEL mode a per-target exception is caught
per target — every target with a registry entry is still invoked and a
thrown call contributes a failure-labelled `[name]\n오류: message` string to
the merged content; in SEQUENTIAL (or single) mode there is no per-target
catch: a thrown call is the last call performed (any non-final call
returned), and the whole step returns the failure result
`Agent 오류: message`. -/
theorem C4_exception_absorption (registry : List McpServerRegistryEntry)
    (activeMcpIds : List String) (gen : String → String → GenResult)
    (input : ClassificationOutput) (msg : String) :
    (input.executionMode = ExecutionMode.parallel →
      ((input.targets.filter (fun t => activeMcpIds.contains t)).length == 1) = false →
      ((agentStep registry activeMcpIds gen input msg).trace.map (fun e => e.target) =
        (input.targets.filter (fun t => activeMcpIds.contains t)).filter
          (fun t => (getRegistryEntry registry t).isSome)) ∧
      (∀ t entry m, t ∈ input.targets.filter (fun t => activeMcpIds.contains t) →
        getRegistryEntry registry t = some entry →
        gen entry.agentId (resolveParallelQuery input.queries t msg) = GenResult.err m →
        containsStr (agentStep registry activeMcpIds gen input msg).result.content
          ("[" ++ entry.name ++ "]\n오류: " ++ m))) ∧
    ((((input.targets.filter (fun t => activeMcpIds.contains t)).length == 1) = true
        ∨ input.executionMode = ExecutionMode.sequential) →
      (input.targets.filter (fun t => activeMcpIds.contains t)).isEmpty = false →
      (∀ e m, e ∈ (agentStep registry activeMcpIds gen input msg).trace →
        e.outcome = GenResult.err m →
        (agentStep registry activeMcpIds gen input msg).result =
          { source := if ((input.targets.filter (fun t => activeMcpIds.contains t)).length == 1) = true
                      then (input.targets.filter (fun t => activeMcpIds.contains t)).headD ""
                      else "multi-agent",
            content := "Agent 오류: " ++ m, success := false }) ∧
      (∀ pre a b post,
        (agentStep registry activeMcpIds gen input msg).trace = pre ++ a :: b :: post →
        ∃ ta, a.outcome = GenResult.ok ta)) := by
  constructor
  · intro hmode hlen
    cases hempty : (input.targets.filter (fun t => activeMcpIds.contains t)).isEmpty with
    | true =>
      have hnil := List.isEmpty_iff.mp hempty
      constructor
      · simp only [agentStep, hempty, if_true]
        rw [hnil]
        rfl
      · intro t entry m ht _ _
        rw [hnil] at ht
        simp at ht
    | false =>
      have hcond : ¬(((input.targets.filter (fun t => activeMcpIds.contains t)).length == 1) = true
          ∨ input.executionMode = ExecutionMode.sequential) := by
        rintro (h | h)
        · rw [hlen] at h
          simp at h
        · rw [hmode] at h
          exact ExecutionMode.noConfusion h
      constructor
      · simp only [agentStep, hempty, Bool.false_eq_true, if_false, if_neg hcond]
        exact parallelTrace_map_target registry gen input.queries msg _
      · intro t entry m ht hentry hgen
        have hcontrib : ("[" ++ entry.name ++ "]\n오류: " ++ m) ∈
            (parallelResults registry gen input.queries msg
              (input.targets.filter (fun t => activeMcpIds.contains t))).filterMap id := by
          rw [parallelResults, List.filterMap_map, List.mem_filterMap]
          exact ⟨t, ht, by simp [Function.comp, hentry, hgen]⟩
        have hne : ∀ c ∈ (parallelResults registry gen input.queries msg
            (input.targets.filter (fun t => activeMcpIds.contains t))).filterMap id, c ≠ "" :=
          fun c hc => parallelResults_mem_ne_empty registry gen input.queries msg _ c hc
        have hfilter : ((parallelResults registry gen input.queries msg
              (input.targets.filter (fun t => activeMcpIds.contains t))).filterMap id).filter
            (fun s => s != "") =
            (parallelResults registry gen input.queries msg
              (input.targets.filter (fun t => activeMcpIds.contains t))).filterMap id :=
          List.filter_eq_self.mpr (fun c hc => by simp [hne c hc])
        have hmerged : joinSep "\n\n---\n\n"
            ((parallelResults registry gen input.queries msg
              (input.targets.filter (fun t => activeMcpIds.contains t))).filterMap id) ≠ "" :=
          joinSep_ne_empty _ _ (List.ne_nil_of_mem hcontrib) hne
        simp only [agentStep, hempty, Bool.false_eq_true, if_false, if_neg hcond, hfilter]
        rw [if_neg (fun hc => hmerged (eq_of_beq hc))]
        exact containsStr_joinSep _ _ _ hcontrib
  · intro hcond hempty
    have htr := agentStep_seq_trace registry activeMcpIds gen input msg hempty hcond
    constructor
    · intro e m he hout
      rw [htr] at he
      have hthrown := seqLoop_err_thrown registry gen input.queries msg _ _ "" e m he hout
      simp only [agentStep, hempty, Bool.false_eq_true, if_false, if_pos hcond, hthrown]
    · intro pre a b post he
      rw [htr] at he
      obtain ⟨ta, hta, _⟩ := (seqLoop_trace_chain registry gen input.queries msg
        ((input.targets.filter (fun t => activeMcpIds.contains t)).length == 1)
        (input.targets.filter (fun t => activeMcpIds.contains t)) "").2 pre a b post he
      exact ⟨ta, hta⟩

/-- Witness for C4 (amended): with both parallel invocations throwing, both
targets are still invoked and the first target's error label appears in the
merged content. -/
theorem C4_exception_absorption_witness :
    ((agentStep MCP_REGISTRY getAllMcpIds (fun _ _ => GenResult.err "boom")
      { type := PlanType.agent, targets := ["atlassian", "google-search"],
        queries := [("atlassian", QueryValue.str "qa"),
                    ("google-search", QueryValue.str "qb")],
        reasoning := "", executionMode := ExecutionMode.parallel } "msg").trace.map
        (fun e => e.target) = ["atlassian", "google-search"]) ∧
    containsStr (agentStep MCP_REGISTRY getAllMcpIds (fun _ _ => GenResult.err "boom")
      { type := PlanType.agent, targets := ["atlassian", "google-search"],
        queries := [("atlassian", QueryValue.str "qa"),
                    ("google-search", QueryValue.str "qb")],
        reasoning := "", executionMode := ExecutionMode.parallel } "msg").result.content
      ("[" ++ "Atlassian (Confluence/Jira)" ++ "]\n오류: " ++ "boom") := by
  have h := (C4_exception_absorption MCP_REGISTRY getAllMcpIds
      (fun _ _ => GenResult.err "boom")
      { type := PlanType.agent, targets := ["atlassian", "google-search"],
        queries := [("atlassian", QueryValue.str "qa"),
                    ("google-search", QueryValue.str "qb")],
        reasoning := "", executionMode := ExecutionMode.parallel } "msg").1 rfl (by decide)
  refine ⟨?_, ?_⟩
  · rw [h.1]
    decide
  · exact h.2 "atlassian"
      { id := "atlassian", name := "Atlassian (Confluence/Jira)",
        agentId := "atlassianAgent" } "boom" (by decide) (by decide) rfl

end Mmiai
